import Mathlib

/-!
Shallow embedding of the btx-sync engine (src/sync_logic.py) together with
the auxiliary logger semantics (src/logger.py) and the constants of
src/constants.py.  The embedding models the run as a function from a
configuration and an environment (the responses the two remote systems and
the cancellation event would give) to a trace of observable effects (HTTP
calls with their payloads, sleeps, log lines, progress reports, file-system
writes) plus an outcome.  Machine-level details that the program never
branches on (HTTP headers other than Content-Type, response bodies beyond
the fields that are read, byte contents of the TMX file) are not carried.
-/

namespace BtxSync

/-- Which HTTP client issues a call: the Braze session, the Transifex
session, or a bare `requests.get` (used only for the TMX download link). -/
inductive Sys
  | braze
  | transifex
  | plainHttp
deriving DecidableEq, Repr

/-- The structured payloads the program serializes with `json.dumps`.
Each constructor carries exactly the data the source puts in the payload. -/
inductive Payload
  | createResource (projectId slug name : String)
  | patchResource (resourceId name : String)
  | upload (resourceId : String) (content : List (String × String))
  | tmxStart (projectId : String)
deriving DecidableEq, Repr

/-- One observable effect of the run. -/
inductive Effect
  | httpGet (sys : Sys) (url : String)
  | httpPost (sys : Sys) (url : String) (p : Payload)
  | httpPatch (sys : Sys) (url : String) (p : Payload)
  | sleepMs (ms : Nat)
  | log (msg : String)
  | progress (msg : String)
  | mkdir (path : String)
  | fileWrite (path : String)
deriving DecidableEq, Repr

/-- The exceptions that can cross function boundaries in sync_logic.py:
`CancellationError`, `requests.exceptions.HTTPError` (from
`raise_for_status`), and `KeyError` (from direct subscript on a missing
key).  Network-level `RequestException`s other than HTTPError are not
modelled separately: the environment answers every request with a status. -/
inductive RunError
  | cancelled (msg : String)
  | httpError (status : Nat) (url : String)
  | keyError (key : String)
deriving DecidableEq, Repr

/-- Threaded run state: the number of reads of the cancellation event so
far (the event's value at each read is given by the environment), and the
effect trace in order of occurrence. -/
structure St where
  checks : Nat
  trace : List Effect
deriving DecidableEq, Repr

/-- Result of a stateful step: the updated state and either a value or the
exception unwinding to the nearest handler. -/
abbrev M (α : Type) := St × Except RunError α

/-- Decidable equality of exception results, for evaluating concrete
runs. -/
instance exceptDecEq {ε α : Type} [DecidableEq ε] [DecidableEq α] :
    DecidableEq (Except ε α) := fun x y =>
  match x, y with
  | .ok a, .ok b =>
    if h : a = b then isTrue (by rw [h]) else
      isFalse (by intro hh; cases hh; exact h rfl)
  | .error e, .error f =>
    if h : e = f then isTrue (by rw [h]) else
      isFalse (by intro hh; cases hh; exact h rfl)
  | .ok _, .error _ => isFalse (by intro hh; cases hh)
  | .error _, .ok _ => isFalse (by intro hh; cases hh)

/-- Append one effect to the trace. -/
def emit (st : St) (e : Effect) : St :=
  { st with trace := st.trace ++ [e] }

/-- `AppLogger.info`: the callback receives the message unchanged. -/
def logInfo (st : St) (msg : String) : St :=
  emit st (.log msg)

/-- `AppLogger.error`: the callback receives "[ERROR] " ++ message. -/
def logError (st : St) (msg : String) : St :=
  emit st (.log ("[ERROR] " ++ msg))

/-- `AppLogger.fatal`: distinctive formatting around the message. -/
def logFatal (st : St) (msg : String) : St :=
  emit st (.log ("\n--- [FATAL] " ++ msg ++ " ---"))

/-- Read-only configuration (the fields of the config mapping that
sync_logic.py reads).  `backupPath` is `Option String` because
`config.get("BACKUP_PATH")` may be absent; the source treats `None` and
`""` alike (falsy). -/
structure Config where
  brazeEndpoint : String
  org : String
  proj : String
  backupEnabled : Bool
  backupPath : Option String
  logLevel : String
deriving DecidableEq, Repr

/-- `AppLogger.debug`: emitted only when the level is "Debug". -/
def logDebug (cfg : Config) (st : St) (msg : String) : St :=
  if cfg.logLevel = "Debug" then emit st (.log ("[DEBUG] " ++ msg)) else st

/-- Response of the resource GET in create_or_update_transifex_resource:
status 404, status 200 (with `data.attributes.name` when present — `none`
models a body where that key path is missing, so the subscript raises
KeyError), or any other status code. -/
inductive ResGetResp
  | notFound
  | okName (name : Option String)
  | other (status : Nat)
deriving DecidableEq, Repr

/-- One poll of the TMX job status endpoint, as the program discriminates
it: HTTP status, then Content-Type, then body shape.  `json` is a response
whose Content-Type contains application/vnd.api+json or application/json,
with `data.attributes.status` (absent key path = `none`) and
`data.links.download` (absent = `none`, subscript raises KeyError).
`jsonBad` is a JSON Content-Type whose body fails to parse.  `file` is a
text/xml or application/octet-stream response.  `badCT` is any other
Content-Type. -/
inductive PollResp
  | json (status : Nat) (jobStatus : Option String) (downloadUrl : Option String)
  | jsonBad (status : Nat)
  | file (status : Nat)
  | badCT (status : Nat) (ct : String)
deriving DecidableEq, Repr

/-- The HTTP status of a poll response (checked by raise_for_status before
the Content-Type dispatch). -/
def PollResp.status : PollResp → Nat
  | .json s _ _ => s
  | .jsonBad s => s
  | .file s => s
  | .badCT s _ => s

/-- A summary item of a Braze list response.  The source reads
`email_template_id`/`template_name` (templates) or `content_block_id`/
`name` (blocks) with `.get`, so each may be absent. -/
structure ListItem where
  id : Option String
  name : Option String
deriving DecidableEq, Repr

/-- Python truthiness of an optional string: `None` and `""` are falsy. -/
def truthy : Option String → Bool
  | none => false
  | some s => s ≠ ""

/-- Python `str(...)` rendering of an optional string, as f-strings render
it: `None` becomes "None". -/
def pyStr : Option String → String
  | none => "None"
  | some s => s

/-- The whitespace characters Python's `str.strip()` removes (the ASCII
ones; the items synced are ordinary text). -/
def isPyWhitespace (c : Char) : Bool :=
  c = ' ' || c = '\t' || c = '\n' || c = '\r' || c = '\x0b' || c = '\x0c'

/-- Python `str.strip()`: drop leading and trailing whitespace. -/
def pyStrip (s : String) : String :=
  let cs := s.data.dropWhile isPyWhitespace
  ⟨(cs.reverse.dropWhile isPyWhitespace).reverse⟩

/-- The environment: everything outside the program.  Braze list endpoints
are modelled as well-behaved paginated servers over a fixed collection
(each request returns the slice of length `limit` at the requested
offset); details, resource lookups and the statuses of mutating calls are
response oracles keyed by the identifiers the program sends; `cancel k` is
the value of `cancel_event.is_set()` at its k-th read; `poll k` is the
k-th TMX status response. -/
structure Env where
  templates : List ListItem
  contentBlocks : List ListItem
  emailDetails : String → String → Option String
  blockDetails : String → String → Option String
  brazeListStatus : String → Nat → Nat
  brazeDetailStatus : String → String → Nat
  resourceGet : String → ResGetResp
  createStatus : String → Nat
  patchStatus : String → Nat
  uploadStatus : String → Nat
  cancel : Nat → Bool
  tmxPostStatus : Nat
  tmxJobId : Option String
  poll : Nat → PollResp
  downloadStatus : Nat
  timestamp : String

/-- constants.py: TRANSIFEX_API_BASE_URL. -/
def TRANSIFEX_API_BASE_URL : String := "https://rest.api.transifex.com"

/-- constants.py: EMAIL_TRANSLATABLE_FIELDS. -/
def EMAIL_TRANSLATABLE_FIELDS : List String := ["subject", "preheader", "body"]

/-- constants.py: BLOCK_TRANSLATABLE_FIELDS. -/
def BLOCK_TRANSLATABLE_FIELDS : List String := ["content"]

/-- The composite project id `o:{org}:p:{proj}` the program builds. -/
def transifexProjectId (cfg : Config) : String :=
  s!"o:{cfg.org}:p:{cfg.proj}"

/-- The composite resource id `{projectId}:r:{slug}`. -/
def resourceIdFor (cfg : Config) (slug : String) : String :=
  s!"{transifexProjectId cfg}:r:{slug}"

/-- The resource endpoint URL for one slug. -/
def resourceUrl (cfg : Config) (slug : String) : String :=
  s!"{TRANSIFEX_API_BASE_URL}/resources/{resourceIdFor cfg slug}"

/-- The resource id the upload function rebuilds inline
(`o:{org}:p:{proj}:r:{slug}`). -/
def uploadResourceId (cfg : Config) (slug : String) : String :=
  s!"o:{cfg.org}:p:{cfg.proj}:r:{slug}"

/-- check_for_cancel in sync_logic_main: report progress, then raise
CancellationError when the event is set. -/
def checkForCancel (env : Env) (msg : String) (st : St) : M Unit :=
  let st1 := emit st (.progress msg)
  let idx := st1.checks
  let st2 := { st1 with checks := st1.checks + 1 }
  if env.cancel idx then
    (st2, .error (.cancelled "Sync process was cancelled by the user."))
  else
    (st2, .ok ())

/-- The direct `cancel_event.is_set()` read inside perform_tmx_backup's
polling loop (no progress report). -/
def pollCancelRead (env : Env) (st : St) : St × Bool :=
  ({ st with checks := st.checks + 1 }, env.cancel st.checks)

/-- create_or_update_transifex_resource: GET the resource, create on 404,
compare-and-PATCH on 200, and otherwise `raise_for_status` (which raises
only for status ≥ 400). -/
def createOrUpdateTransifexResource (cfg : Config) (env : Env)
    (slug name : String) (st : St) : M Unit :=
  match checkForCancel env s!"Processing resource '{slug}'..." st with
  | (st, .error e) => (st, .error e)
  | (st, .ok _) =>
    let resourceId := resourceIdFor cfg slug
    let url := resourceUrl cfg slug
    let st := emit st (.httpGet .transifex url)
    match env.resourceGet slug with
    | .notFound =>
      let st := logInfo st s!"  > Resource '{slug}' not found. Creating..."
      let createUrl := s!"{TRANSIFEX_API_BASE_URL}/resources"
      let st := emit st
        (.httpPost .transifex createUrl (.createResource (transifexProjectId cfg) slug name))
      if 400 ≤ env.createStatus slug then
        (st, .error (.httpError (env.createStatus slug) createUrl))
      else
        (logInfo st s!"  > Resource '{slug}' created with name '{name}'.", .ok ())
    | .okName none =>
      -- response.json()["data"]["attributes"]["name"] with the key missing
      (st, .error (.keyError "name"))
    | .okName (some existingName) =>
      if existingName ≠ name then
        let st := logInfo st s!"  > Updating name for '{slug}' to '{name}'..."
        let st := emit st (.httpPatch .transifex url (.patchResource resourceId name))
        if 400 ≤ env.patchStatus slug then
          (st, .error (.httpError (env.patchStatus slug) url))
        else
          (logInfo st "  > Name updated successfully.", .ok ())
      else
        (logInfo st s!"  > Resource '{slug}' found with correct name.", .ok ())
    | .other s =>
      if 400 ≤ s then (st, .error (.httpError s url)) else (st, .ok ())

/-- upload_source_content_to_transifex: skip (log only) when the content
dict is empty, otherwise POST the async upload job; the success log fires
only on a 202. -/
def uploadSourceContentToTransifex (cfg : Config) (env : Env)
    (content : List (String × String)) (resourceSlug : String) (st : St) : M Unit :=
  match checkForCancel env s!"Uploading content for '{resourceSlug}'..." st with
  | (st, .error e) => (st, .error e)
  | (st, .ok _) =>
    if content.isEmpty then
      (logInfo st "  > No content to upload. Skipping.", .ok ())
    else
      let resourceId := uploadResourceId cfg resourceSlug
      let url := s!"{TRANSIFEX_API_BASE_URL}/resource_strings_async_uploads"
      let st := emit st (.httpPost .transifex url (.upload resourceId content))
      let sc := env.uploadStatus resourceSlug
      if 400 ≤ sc then
        (st, .error (.httpError sc url))
      else if sc = 202 then
        (logInfo st s!"  > Upload started for {content.length} string(s).", .ok ())
      else
        (st, .ok ())

/-- The dict comprehension filtering translatable fields:
keep field f when `details.get(f)` is truthy and `str(details.get(f)).strip()`
is truthy, i.e. the value is present, non-empty, and non-blank after
trimming.  Order follows the field list. -/
def filterContent (details : String → Option String) (fields : List String) :
    List (String × String) :=
  fields.filterMap fun f =>
    match details f with
    | some v => if v ≠ "" ∧ pyStrip v ≠ "" then some (f, v) else none
    | none => none

/-- The loop body of fetch_braze_list: check for cancellation, sleep 0.2s,
build the URL (omitting the offset parameter when offset = 0), log, GET the
page, raise on an error status, and stop when the page is empty or shorter
than the page size; otherwise advance the offset by the page length.
The environment serves the slice of `coll` at the requested offset. -/
def fetchBrazeListLoop (cfg : Config) (env : Env) (endpoint listKey : String)
    (coll : List ListItem) (limit : Nat) :
    Nat → Nat → List ListItem → St → M (List ListItem)
  | 0, _, acc, st => (st, .ok acc)
  | fuel + 1, offset, acc, st =>
    match checkForCancel env s!"Fetching {listKey} (offset {offset})..." st with
    | (st, .error e) => (st, .error e)
    | (st, .ok _) =>
      let st := emit st (.sleepMs 200)
      let base := cfg.brazeEndpoint
      let baseUrl := s!"{base}{endpoint}?limit={limit}"
      let url := if 0 < offset then s!"{baseUrl}&offset={offset}" else baseUrl
      let st := logInfo st s!"Fetching {listKey} list from Braze: offset {offset}"
      let st := emit st (.httpGet .braze url)
      let sc := env.brazeListStatus endpoint offset
      if 400 ≤ sc then
        (st, .error (.httpError sc url))
      else
        let items := (coll.drop offset).take limit
        if items.isEmpty then
          (st, .ok acc)
        else
          let acc2 := acc ++ items
          if items.length < limit then
            (st, .ok acc2)
          else
            fetchBrazeListLoop cfg env endpoint listKey coll limit fuel
              (offset + items.length) acc2 st

/-- fetch_braze_list: page size 100, starting at offset 0 with no items
accumulated.  The `while True` of the source terminates against the
slice-serving environment because each kept page advances the offset by at
least one; `coll.length + 1` rounds of fuel are provably enough, so the
fuel-exhausted branch is never taken. -/
def fetchBrazeList (cfg : Config) (env : Env) (endpoint listKey : String)
    (coll : List ListItem) (st : St) : M (List ListItem) :=
  fetchBrazeListLoop cfg env endpoint listKey coll 100 (coll.length + 1) 0 [] st

/-- fetch_braze_item_details: check for cancellation, sleep 0.2s, log, GET
the detail document for one item, raise on an error status, and return the
parsed body (a field map supplied by the environment). -/
def fetchBrazeItemDetails (cfg : Config) (env : Env)
    (details : String → String → Option String)
    (statuses : String → String → Nat)
    (endpoint idParamName itemId : String) (st : St) :
    M (String → Option String) :=
  match checkForCancel env s!"Fetching details for {idParamName}: {itemId}..." st with
  | (st, .error e) => (st, .error e)
  | (st, .ok _) =>
    let st := emit st (.sleepMs 200)
    let base := cfg.brazeEndpoint
    let url := s!"{base}{endpoint}?{idParamName}={itemId}"
    let st := logInfo st s!"  > Fetching details for ID: {itemId}"
    let st := emit st (.httpGet .braze url)
    let sc := statuses endpoint itemId
    if 400 ≤ sc then
      (st, .error (.httpError sc url))
    else
      (st, .ok (details itemId))

/-- One iteration of the per-item loops in sync_logic_main ([1] email
templates, [2] content blocks — the two bodies are identical up to the
`kind` label, detail endpoint, id parameter name, details oracle and field
list): check for cancellation, skip the item when its id or display name
is absent or empty (`continue`), otherwise fetch details, reconcile the
resource, and upload the filtered content. -/
def processItem (cfg : Config) (env : Env) (kind endpoint idParamName : String)
    (details : String → String → Option String)
    (statuses : String → String → Nat)
    (fields : List String) (item : ListItem) (st : St) : M Unit :=
  match checkForCancel env s!"Processing {kind} '{pyStr item.name}'..." st with
  | (st, .error e) => (st, .error e)
  | (st, .ok _) =>
    if truthy item.id ∧ truthy item.name then
      let itemId := item.id.getD ""
      let itemName := item.name.getD ""
      let st := logInfo st s!"\nProcessing '{itemName}' (ID: {itemId})..."
      match fetchBrazeItemDetails cfg env details statuses endpoint idParamName itemId st with
      | (st, .error e) => (st, .error e)
      | (st, .ok dmap) =>
        match createOrUpdateTransifexResource cfg env itemId itemName st with
        | (st, .error e) => (st, .error e)
        | (st, .ok _) =>
          let content := filterContent dmap fields
          uploadSourceContentToTransifex cfg env content itemId st
    else
      (st, .ok ())

/-- The per-item loop over a fetched list. -/
def processItems (cfg : Config) (env : Env) (kind endpoint idParamName : String)
    (details : String → String → Option String)
    (statuses : String → String → Nat)
    (fields : List String) : List ListItem → St → M Unit
  | [], st => (st, .ok ())
  | item :: rest, st =>
    match processItem cfg env kind endpoint idParamName details statuses fields item st with
    | (st, .error e) => (st, .error e)
    | (st, .ok _) =>
      processItems cfg env kind endpoint idParamName details statuses fields rest st

/-- Exit reason of the TMX polling loop. -/
inductive PollExit
  | content
  | failedEarly
  | deadline
  | fuelOut
deriving DecidableEq, Repr

/-- The polling loop of perform_tmx_backup.  `t` is elapsed time in
seconds (only the poll sleeps advance it; the deadline is 300s from the
start), `interval` the current backoff interval (starts at 5, doubles each
iteration, capped at 30), `k` the index of the next status response.
`fuel` bounds the recursion; with the fuel perform_tmx_backup supplies the
loop always exits by deadline first (each iteration advances `t` by at
least 5 seconds). -/
def pollLoop (cfg : Config) (env : Env) (statusUrl : String) :
    Nat → Nat → Nat → Nat → St → M PollExit
  | 0, _, _, _, st => (st, .ok .fuelOut)
  | fuel + 1, t, interval, k, st =>
    if t < 300 then
      match pollCancelRead env st with
      | (st, true) => (st, .error (.cancelled "Backup process cancelled by user."))
      | (st, false) =>
        let st := emit st (.httpGet .transifex statusUrl)
        let resp := env.poll k
        if 400 ≤ resp.status then
          (logFatal st "A network error occurred while checking backup status.",
           .ok .failedEarly)
        else
          match resp with
          | .json _ jobStatus downloadUrl =>
            if jobStatus = some "completed" then
              match downloadUrl with
              | none =>
                -- status_data["data"]["links"]["download"] raises KeyError,
                -- caught by the generic handler of the polling try-block
                (logError st "An unexpected error occurred during TMX backup polling: KeyError",
                 .ok .failedEarly)
              | some durl =>
                let st := logInfo st "  > File ready for download."
                let st := emit st (.httpGet .plainHttp durl)
                if 400 ≤ env.downloadStatus then
                  (logFatal st "A network error occurred while checking backup status.",
                   .ok .failedEarly)
                else
                  (st, .ok .content)
            else if jobStatus = some "failed" then
              (logError st "Transifex reported the backup job failed.", .ok .failedEarly)
            else
              let sts := pyStr jobStatus
              let st := logDebug cfg st
                s!"Current job status: '{sts}'. Polling again in {interval}s."
              let st := emit st (.sleepMs (interval * 1000))
              pollLoop cfg env statusUrl fuel (t + interval) (min (interval * 2) 30) (k + 1) st
          | .jsonBad _ =>
            (logError st "Received invalid JSON while checking TMX backup status.",
             .ok .failedEarly)
          | .file _ =>
            (logInfo st "  > Received TMX file content directly.", .ok .content)
          | .badCT _ ct =>
            (logError st s!"Unexpected content type received during TMX backup polling: '{ct}'.",
             .ok .failedEarly)
    else
      (st, .ok .deadline)

/-- perform_tmx_backup: an unset or empty backup path logs an error and
returns success; otherwise create the directory, POST the export job,
poll until the file is in hand or the run fails or the 300s deadline
passes, and persist the file. -/
def performTmxBackup (cfg : Config) (env : Env) (st : St) : M Bool :=
  let st := logInfo st "\n--- Starting TMX Backup ---"
  if truthy cfg.backupPath then
    let p := cfg.backupPath.getD ""
    let st := emit st (.mkdir p)
    let org := cfg.org
    let proj := cfg.proj
    let projectId := s!"o:{org}:p:{proj}"
    let st := logInfo st "  > Requesting TMX file for all languages from Transifex..."
    let postUrl := s!"{TRANSIFEX_API_BASE_URL}/tmx_async_downloads"
    let st := emit st (.httpPost .transifex postUrl (.tmxStart projectId))
    if 400 ≤ env.tmxPostStatus then
      (logFatal st "A network error occurred.", .ok false)
    else
      match env.tmxJobId with
      | none =>
        -- response.json()["data"]["id"] raises KeyError, caught by the
        -- generic handler around the job creation
        (logFatal st "An unexpected error occurred starting TMX backup job: KeyError",
         .ok false)
      | some jobId =>
        let statusUrl := s!"{TRANSIFEX_API_BASE_URL}/tmx_async_downloads/{jobId}"
        let st := logInfo st s!"  > Backup job created successfully. ID: {jobId}"
        let st := logInfo st "  > Waiting for Transifex to process the file..."
        match pollLoop cfg env statusUrl 301 0 5 0 st with
        | (st, .error e) => (st, .error e)
        | (st, .ok .content) =>
          let ts := env.timestamp
          let filename := s!"backup_{proj}_all_languages_{ts}.tmx"
          let filepath := s!"{p}/{filename}"
          let st := emit st (.fileWrite filepath)
          (logInfo st s!"  > SUCCESS: Backup saved to {filepath}", .ok true)
        | (st, .ok .failedEarly) => (st, .ok false)
        | (st, .ok .deadline) =>
          (logError st "TMX backup job timed out after 5 minutes.", .ok false)
        | (st, .ok .fuelOut) => (st, .ok false)
  else
    (logError st "Backup path is not defined. Skipping backup.", .ok true)

/-- Result of the try-block body of sync_logic_main. -/
inductive CoreResult
  | haltedBackupFailure
  | finished
deriving DecidableEq, Repr

/-- The enumeration part of sync_logic_main's try block: the two
collection sections, each a cancellation check, a banner log, the list
fetch, and the per-item loop. -/
def syncBody (cfg : Config) (env : Env) (st : St) : M CoreResult :=
  match checkForCancel env "\n[1] Processing Email Templates..." st with
  | (st, .error e) => (st, .error e)
  | (st, .ok _) =>
    let st := logInfo st "\n[1] Processing Email Templates..."
    match fetchBrazeList cfg env "/templates/email/list" "templates" env.templates st with
    | (st, .error e) => (st, .error e)
    | (st, .ok items) =>
      match processItems cfg env "Email Template" "/templates/email/info"
          "email_template_id" env.emailDetails env.brazeDetailStatus
          EMAIL_TRANSLATABLE_FIELDS items st with
      | (st, .error e) => (st, .error e)
      | (st, .ok _) =>
        match checkForCancel env "\n[2] Processing Content Blocks..." st with
        | (st, .error e) => (st, .error e)
        | (st, .ok _) =>
          let st := logInfo st "\n[2] Processing Content Blocks..."
          match fetchBrazeList cfg env "/content_blocks/list" "content_blocks"
              env.contentBlocks st with
          | (st, .error e) => (st, .error e)
          | (st, .ok blocks) =>
            match processItems cfg env "Content Block" "/content_blocks/info"
                "content_block_id" env.blockDetails env.brazeDetailStatus
                BLOCK_TRANSLATABLE_FIELDS blocks st with
            | (st, .error e) => (st, .error e)
            | (st, .ok _) =>
              (logInfo st "\n--- Sync Complete! ---", .ok .finished)

/-- The try block of sync_logic_main: initial cancellation check, optional
backup (a failed backup halts the run), then the enumeration. -/
def syncCore (cfg : Config) (env : Env) (st : St) : M CoreResult :=
  match checkForCancel env "Starting sync process..." st with
  | (st, .error e) => (st, .error e)
  | (st, .ok _) =>
    if cfg.backupEnabled then
      match performTmxBackup cfg env st with
      | (st, .error e) => (st, .error e)
      | (st, .ok false) =>
        (logInfo st "\n--- Sync halted due to backup failure. ---", .ok .haltedBackupFailure)
      | (st, .ok true) =>
        let st := logInfo st "--- TMX Backup complete. Proceeding with sync. ---\n"
        syncBody cfg env st
    else
      let st := logInfo st "TMX backup is disabled. Skipping."
      syncBody cfg env st

/-- How sync_logic_main returned (it never raises: every exception is
caught and logged by the handlers at its end). -/
inductive Outcome
  | completed
  | backupHalted
  | cancelledCaught
  | httpErrorCaught
  | keyErrorCaught
deriving DecidableEq, Repr

/-- The initial state of a run: the opening banner is logged before the
try block, and no cancellation read has happened yet. -/
def initSt : St :=
  { checks := 0, trace := [.log "--- Starting Braze to Transifex Sync ---"] }

/-- sync_logic_main: run the try block from the initial state and apply
the exception handlers.  The HTTPError handler logs the summary, the
request URL and the status code (header/body detail logs are not carried
by the model); the KeyError handler logs the missing key; the
CancellationError handler logs the user-initiated stop. -/
def syncMain (cfg : Config) (env : Env) : St × Outcome :=
  match syncCore cfg env initSt with
  | (st, .ok .finished) => (st, .completed)
  | (st, .ok .haltedBackupFailure) => (st, .backupHalted)
  | (st, .error (.cancelled msg)) =>
    (logInfo st s!"\n--- {msg} ---", .cancelledCaught)
  | (st, .error (.httpError sc url)) =>
    let st := logFatal st "An API error occurred."
    let st := logError st s!"Request URL: {url}"
    let st := logError st s!"Response Status Code: {sc}"
    (st, .httpErrorCaught)
  | (st, .error (.keyError key)) =>
    (logFatal st s!"Received an unexpected API response. Missing expected key: '{key}'",
     .keyErrorCaught)

/-- A resource-creation POST (the payload sync_logic builds on a 404). -/
def isCreatePost : Effect → Bool
  | .httpPost _ _ (.createResource _ _ _) => true
  | _ => false

/-- Any PATCH call. -/
def isPatchCall : Effect → Bool
  | .httpPatch _ _ _ => true
  | _ => false

/-- A content-upload POST (resource_strings_async_uploads). -/
def isUploadPost : Effect → Bool
  | .httpPost _ _ (.upload _ _) => true
  | _ => false

/-- Any HTTP request. -/
def isHttp : Effect → Bool
  | .httpGet _ _ => true
  | .httpPost _ _ _ => true
  | .httpPatch _ _ _ => true
  | _ => false

/-- A request issued through the Braze session (a Source call). -/
def isBrazeCall : Effect → Bool
  | .httpGet .braze _ => true
  | .httpPost .braze _ _ => true
  | .httpPatch .braze _ _ => true
  | _ => false

/-- A GET issued through the Transifex session. -/
def isTransifexGet : Effect → Bool
  | .httpGet .transifex _ => true
  | _ => false

/-- The bare GET that fetches the TMX file from the download link. -/
def isDownloadGet : Effect → Bool
  | .httpGet .plainHttp _ => true
  | _ => false

/-- A sleep effect. -/
def isSleep : Effect → Bool
  | .sleepMs _ => true
  | _ => false

/-- A Source request or a Target reconciliation/upload mutation. -/
def isSourceOrMutation (e : Effect) : Bool :=
  isBrazeCall e || isCreatePost e || isPatchCall e || isUploadPost e

/-- The log line the top-level CancellationError handler emits (one of the
two cancellation messages raised in the source). -/
def isCancelLogLine : Effect → Bool
  | .log msg =>
    msg = "\n--- Sync process was cancelled by the user. ---" ||
    msg = "\n--- Backup process cancelled by user. ---"
  | _ => false

/-- A base configuration for concrete runs. -/
def cfg0 : Config :=
  { brazeEndpoint := "https://rest.braze.test"
    org := "org"
    proj := "proj"
    backupEnabled := false
    backupPath := some "/backups"
    logLevel := "Normal" }

/-- A base environment for concrete runs: no items, every request
succeeds, no cancellation, polling pends forever. -/
def env0 : Env :=
  { templates := []
    contentBlocks := []
    emailDetails := fun _ _ => none
    blockDetails := fun _ _ => none
    brazeListStatus := fun _ _ => 200
    brazeDetailStatus := fun _ _ => 200
    resourceGet := fun _ => .notFound
    createStatus := fun _ => 201
    patchStatus := fun _ => 200
    uploadStatus := fun _ => 202
    cancel := fun _ => false
    tmxPostStatus := 200
    tmxJobId := some "job1"
    poll := fun _ => .json 200 (some "pending") none
    downloadStatus := 200
    timestamp := "2026-01-01_00-00-00" }

/-- Modelled from the spec's words, for comparison with `filterContent`
(which is translated from the code): keep exactly the entries of the field
list whose value is non-null and non-blank after trimming whitespace. -/
def specContentFilter (details : String → Option String) (fields : List String) :
    List (String × String) :=
  fields.filterMap fun f =>
    match details f with
    | some v => if pyStrip v ≠ "" then some (f, v) else none
    | none => none

/-- An item the per-item loops process rather than skip: both the id and
the display name are present and non-empty. -/
def validItem (it : ListItem) : Bool :=
  truthy it.id && truthy it.name

/-- Concatenation of the images of a list under a list-valued function. -/
def concatMap (f : α → List β) : List α → List β
  | [] => []
  | x :: xs => f x ++ concatMap f xs

/-- The upload effects one item contributes to a run in which the item's
details are `d (item id)` and every upload POST succeeds: nothing when the
item is skipped or its filtered content is empty, otherwise the single
upload POST with the filtered content. -/
def uploadsFor (cfg : Config) (d : String → String → Option String)
    (fields : List String) (it : ListItem) : List Effect :=
  if validItem it then
    let itemId := it.id.getD ""
    let content := filterContent (d itemId) fields
    if content.isEmpty then []
    else
      [.httpPost .transifex s!"{TRANSIFEX_API_BASE_URL}/resource_strings_async_uploads"
        (.upload (uploadResourceId cfg itemId) content)]
  else []

/-- A detail oracle whose only value is whitespace. -/
def dBlank : String → String → Option String :=
  fun _ f => if f = "subject" then some "   " else none

/-- A 150-item collection for the concrete pagination runs. -/
def coll150 : List ListItem :=
  (List.range 150).map fun i => ⟨some (toString i), some (toString i)⟩

/-- A 200-item collection (a multiple of the page size, so enumeration
stops on an empty third page). -/
def coll200 : List ListItem :=
  (List.range 200).map fun i => ⟨some (toString i), some (toString i)⟩

/-- An environment whose resource GET answers 200 with the name attribute
missing from the body. -/
def envC8b : Env :=
  { env0 with
    templates := [⟨some "e1", some "Welcome"⟩]
    resourceGet := fun _ => .okName none }

/-- An item whose processing run issues a creation POST: it is valid and
the resource GET answers 404. -/
def createdItem (env : Env) (it : ListItem) : Bool :=
  validItem it &&
    (match env.resourceGet (it.id.getD "") with
     | .notFound => true
     | _ => false)

/-- An environment holding one email template "Welcome" with subject "Hi",
for the concrete idempotence runs; the resource does not exist yet. -/
def envRunOne : Env :=
  { env0 with
    templates := [⟨some "e1", some "Welcome"⟩]
    emailDetails := fun i f =>
      if i = "e1" ∧ f = "subject" then some "Hi" else none }

/-- The same Source data with the Target now holding the resource created
by the first run, under the matching name. -/
def envRunTwo : Env :=
  { envRunOne with resourceGet := fun _ => .okName (some "Welcome") }

/-- A cancellation check that finds the event unset reports progress and
returns. -/
lemma checkForCancel_ok (env : Env) (msg : String) (st : St)
    (h : env.cancel st.checks = false) :
    checkForCancel env msg st =
      ({ checks := st.checks + 1, trace := st.trace ++ [.progress msg] }, .ok ()) := by
  simp [checkForCancel, emit, h]

/-- C2 counterexample: the claim says a resource GET status other than
404/200 always raises an error, but `raise_for_status` raises only for
status ≥ 400.  With the GET answering 201, the reconciliation returns
normally, issuing no creation POST and no PATCH and raising nothing. -/
theorem C2_counterexample :
    (createOrUpdateTransifexResource cfg0
        { env0 with resourceGet := fun _ => .other 201 } "slug1" "New" initSt).2 =
      Except.ok () ∧
    (createOrUpdateTransifexResource cfg0
        { env0 with resourceGet := fun _ => .other 201 } "slug1" "New" initSt).1.trace.countP
        isSourceOrMutation = 0 := by
  constructor
  · rfl
  · rfl

/-- C2 (amended): resource reconciliation performs GET-then-compare: on a
404 exactly one creation POST with the desired slug and name (and no
PATCH); on a 200 with a different existing name exactly one PATCH whose
payload name is the desired name (and no creation POST); on a 200 with the
name already equal zero POST and zero PATCH calls; any other status ≥ 400
raises an error, while a non-200/404 status below 400 silently does
nothing (no call, no error). -/
theorem C2_amended (cfg : Config) (env : Env) (slug name : String) (c : Nat)
    (hc : ∀ k, env.cancel k = false) :
    let projId := transifexProjectId cfg
    let rid := resourceIdFor cfg slug
    let url := resourceUrl cfg slug
    let r := createOrUpdateTransifexResource cfg env slug name ⟨c, []⟩
    (env.resourceGet slug = .notFound →
      r.1.trace.filter (fun e => isCreatePost e || isPatchCall e) =
        [.httpPost .transifex s!"{TRANSIFEX_API_BASE_URL}/resources"
          (.createResource projId slug name)]) ∧
    (∀ ex, env.resourceGet slug = .okName (some ex) → ex ≠ name →
      r.1.trace.filter (fun e => isCreatePost e || isPatchCall e) =
        [.httpPatch .transifex url (.patchResource rid name)]) ∧
    (env.resourceGet slug = .okName (some name) →
      r = (⟨c + 1, [.progress s!"Processing resource '{slug}'...",
                    .httpGet .transifex url,
                    .log s!"  > Resource '{slug}' found with correct name."]⟩, .ok ())) ∧
    (∀ s, env.resourceGet slug = .other s → 400 ≤ s →
      r.2 = .error (.httpError s url)) ∧
    (∀ s, env.resourceGet slug = .other s → s < 400 →
      r = (⟨c + 1, [.progress s!"Processing resource '{slug}'...",
                    .httpGet .transifex url]⟩, .ok ())) := by
  intro projId rid url r
  have hck : env.cancel c = false := hc c
  refine ⟨?_, ?_, ?_, ?_, ?_⟩
  · intro h404
    show (createOrUpdateTransifexResource cfg env slug name ⟨c, []⟩).1.trace.filter _ = _
    rw [createOrUpdateTransifexResource, checkForCancel_ok env _ _ hck]
    simp only [h404]
    by_cases hcs : 400 ≤ env.createStatus slug
    · simp [hcs, emit, logInfo, isCreatePost, isPatchCall, List.filter]
    · simp [hcs, emit, logInfo, isCreatePost, isPatchCall, List.filter]
  · intro ex hok hne
    show (createOrUpdateTransifexResource cfg env slug name ⟨c, []⟩).1.trace.filter _ = _
    rw [createOrUpdateTransifexResource, checkForCancel_ok env _ _ hck]
    simp only [hok]
    by_cases hps : 400 ≤ env.patchStatus slug
    · simp [hne, hps, emit, logInfo, isCreatePost, isPatchCall, List.filter]
    · simp [hne, hps, emit, logInfo, isCreatePost, isPatchCall, List.filter]
  · intro hok
    show createOrUpdateTransifexResource cfg env slug name ⟨c, []⟩ = _
    rw [createOrUpdateTransifexResource, checkForCancel_ok env _ _ hck]
    simp [hok, emit, logInfo]
  · intro s hs h400
    show (createOrUpdateTransifexResource cfg env slug name ⟨c, []⟩).2 = _
    rw [createOrUpdateTransifexResource, checkForCancel_ok env _ _ hck]
    simp [hs, h400, emit]
  · intro s hs hlt
    show createOrUpdateTransifexResource cfg env slug name ⟨c, []⟩ = _
    rw [createOrUpdateTransifexResource, checkForCancel_ok env _ _ hck]
    simp [hs, Nat.not_le.mpr hlt, emit]

/-- C2 witness: the amended reconciliation theorem applied at a concrete
404 environment. -/
theorem C2_witness :
    (createOrUpdateTransifexResource cfg0 env0 "e1" "Welcome" ⟨0, []⟩).1.trace.filter
        (fun e => isCreatePost e || isPatchCall e) =
      [.httpPost .transifex "https://rest.api.transifex.com/resources"
        (.createResource "o:org:p:proj" "e1" "Welcome")] := by
  have h := (C2_amended cfg0 env0 "e1" "Welcome" 0 (fun _ => rfl)).1 rfl
  simpa using h

/-- C9: with backup enabled but the backup directory path absent or empty,
perform_tmx_backup logs an error and returns success having issued no
network call and written no file (the resulting state adds exactly two log
lines), so the sync proceeds to contact Source as if the backup had
completed (concrete run: outcome completed, with Source list calls made).
-/
theorem C9_backup_path_missing :
    (∀ cfg env st, cfg.backupPath = none ∨ cfg.backupPath = some "" →
      performTmxBackup cfg env st =
        (logError (logInfo st "\n--- Starting TMX Backup ---")
          "Backup path is not defined. Skipping backup.", .ok true)) ∧
    (syncMain { cfg0 with backupEnabled := true, backupPath := none } env0).2 =
      .completed ∧
    (syncMain { cfg0 with backupEnabled := true, backupPath := none }
        env0).1.trace.countP isBrazeCall = 2 := by
  refine ⟨?_, by rfl, by rfl⟩
  intro cfg env st h
  rcases h with h | h <;> simp [performTmxBackup, h, truthy]

/-- C9 witness: the path-missing case applied at a concrete configuration
and environment. -/
theorem C9_witness :
    performTmxBackup { cfg0 with backupPath := none } env0 initSt =
      (logError (logInfo initSt "\n--- Starting TMX Backup ---")
        "Backup path is not defined. Skipping backup.", .ok true) :=
  C9_backup_path_missing.1 { cfg0 with backupPath := none } env0 initSt (.inl rfl)

/-- One polling iteration on a JSON status that is neither "completed" nor
"failed" (including a missing status): log at debug level, sleep the
current interval, double it (capped at 30), and poll again. -/
lemma pollLoop_step (cfg : Config) (env : Env) (url : String)
    (fuel t interval k : Nat) (st : St) (js : Option String) (dl : Option String)
    (ht : t < 300) (hc : env.cancel st.checks = false)
    (hp : env.poll k = .json 200 js dl)
    (h1 : js ≠ some "completed") (h2 : js ≠ some "failed") :
    pollLoop cfg env url (fuel + 1) t interval k st =
      pollLoop cfg env url fuel (t + interval) (min (interval * 2) 30) (k + 1)
        (emit (logDebug cfg
          { checks := st.checks + 1, trace := st.trace ++ [.httpGet .transifex url] }
          s!"Current job status: '{pyStr js}'. Polling again in {interval}s.")
          (.sleepMs (interval * 1000))) := by
  simp [pollLoop, ht, pollCancelRead, hc, emit, hp, PollResp.status, h1, h2]

/-- C10: during backup polling, a JSON status response whose status field
is neither "completed" nor "failed" — including a missing or null status
field — is treated exactly like "pending": the loop sleeps the current
backoff interval and polls again. -/
theorem C10_unknown_status_pends (cfg : Config) (env : Env) (url : String)
    (fuel t interval k : Nat) (st : St) (js : Option String) (dl : Option String)
    (ht : t < 300) (hc : env.cancel st.checks = false)
    (hp : env.poll k = .json 200 js dl)
    (h1 : js ≠ some "completed") (h2 : js ≠ some "failed") :
    pollLoop cfg env url (fuel + 1) t interval k st =
      pollLoop cfg env url fuel (t + interval) (min (interval * 2) 30) (k + 1)
        (emit (logDebug cfg
          { checks := st.checks + 1, trace := st.trace ++ [.httpGet .transifex url] }
          s!"Current job status: '{pyStr js}'. Polling again in {interval}s.")
          (.sleepMs (interval * 1000))) :=
  pollLoop_step cfg env url fuel t interval k st js dl ht hc hp h1 h2

/-- C10 witness: an iteration on a response with a missing status field
behaves like pending at a concrete environment. -/
theorem C10_witness :
    pollLoop cfg0 { env0 with poll := fun _ => .json 200 none none } "u" 3 0 5 0 initSt =
      pollLoop cfg0 { env0 with poll := fun _ => .json 200 none none } "u" 2 5 10 1
        (emit (logDebug cfg0
          { checks := 1, trace := initSt.trace ++ [.httpGet .transifex "u"] }
          "Current job status: 'None'. Polling again in 5s.")
          (.sleepMs 5000)) := by
  have h := C10_unknown_status_pends cfg0 { env0 with poll := fun _ => .json 200 none none }
    "u" 2 0 5 0 initSt none none (by decide) rfl rfl (by decide) (by decide)
  simpa using h

/-- When every field's value is absent or blank after trimming, the
filtered content is empty. -/
lemma filterContent_blank (d : String → Option String) (fields : List String)
    (h : ∀ f ∈ fields, ∀ v, d f = some v → pyStrip v = "") :
    filterContent d fields = [] := by
  induction fields with
  | nil => rfl
  | cons f fs ih =>
    have hf := h f (by simp)
    have hrest : ∀ g ∈ fs, ∀ v, d g = some v → pyStrip v = "" := by
      intro g hg v hv
      exact h g (by simp [hg]) v hv
    show List.filterMap _ (f :: fs) = []
    rw [List.filterMap_cons]
    cases hdf : d f with
    | none =>
      simp only [hdf]
      exact ih hrest
    | some v =>
      have htr : pyStrip v = "" := hf v hdf
      simp only [hdf]
      rw [if_neg (by simp [htr])]
      exact ih hrest

/-- Resource reconciliation always issues exactly one Transifex GET and
never an upload POST, whatever the environment answers. -/
lemma ensure_counts (cfg : Config) (env : Env) (slug name : String) (st : St)
    (hck : env.cancel st.checks = false) :
    (createOrUpdateTransifexResource cfg env slug name st).1.trace.countP isTransifexGet =
      st.trace.countP isTransifexGet + 1 ∧
    (createOrUpdateTransifexResource cfg env slug name st).1.trace.countP isUploadPost =
      st.trace.countP isUploadPost := by
  rw [createOrUpdateTransifexResource, checkForCancel_ok env _ _ hck]
  rcases hres : env.resourceGet slug with _ | nm | s
  · by_cases hcs : 400 ≤ env.createStatus slug <;>
      simp [hres, hcs, emit, logInfo, List.countP_append, isTransifexGet, isUploadPost]
  · cases nm with
    | none => simp [hres, emit, List.countP_append, isTransifexGet, isUploadPost]
    | some ex =>
      by_cases hne : ex = name
      · simp [hres, hne, emit, logInfo, List.countP_append, isTransifexGet, isUploadPost]
      · by_cases hps : 400 ≤ env.patchStatus slug <;>
          simp [hres, hne, hps, emit, logInfo, List.countP_append, isTransifexGet,
            isUploadPost]
  · by_cases hs : 400 ≤ s <;>
      simp [hres, hs, emit, List.countP_append, isTransifexGet, isUploadPost]

/-- An upload with an empty content dict only logs and returns. -/
lemma upload_empty (cfg : Config) (env : Env) (slug : String) (st : St)
    (hck : env.cancel st.checks = false) :
    uploadSourceContentToTransifex cfg env [] slug st =
      ({ checks := st.checks + 1,
         trace := st.trace ++ [.progress s!"Uploading content for '{slug}'...",
                               .log "  > No content to upload. Skipping."] }, .ok ()) := by
  rw [uploadSourceContentToTransifex, checkForCancel_ok env _ _ hck]
  simp [emit, logInfo]

/-- Reconciliation followed by an upload of blank-filtered-away content:
the uploads count is unchanged and exactly one Transifex GET is added,
whatever the reconciliation outcome. -/
lemma ensureThenUploadBlank_counts (cfg : Config) (env : Env)
    (itemId itemName : String) (d : String → String → Option String)
    (fields : List String) (st : St)
    (hc : ∀ k, env.cancel k = false)
    (hblank : ∀ f ∈ fields, ∀ v, d itemId f = some v → pyStrip v = "") :
    (match createOrUpdateTransifexResource cfg env itemId itemName st with
      | (st2, .error e) => ((st2, .error e) : M Unit)
      | (st2, .ok _) =>
        uploadSourceContentToTransifex cfg env (filterContent (d itemId) fields)
          itemId st2).1.trace.countP isUploadPost = st.trace.countP isUploadPost ∧
    (match createOrUpdateTransifexResource cfg env itemId itemName st with
      | (st2, .error e) => ((st2, .error e) : M Unit)
      | (st2, .ok _) =>
        uploadSourceContentToTransifex cfg env (filterContent (d itemId) fields)
          itemId st2).1.trace.countP isTransifexGet = st.trace.countP isTransifexGet + 1 := by
  have hcnt := ensure_counts cfg env itemId itemName st (hc _)
  rcases hr : createOrUpdateTransifexResource cfg env itemId itemName st with ⟨st2, r2⟩
  rw [hr] at hcnt
  cases r2 with
  | error e =>
    exact ⟨hcnt.2, hcnt.1⟩
  | ok u =>
    show (uploadSourceContentToTransifex cfg env (filterContent (d itemId) fields)
        itemId st2).1.trace.countP isUploadPost = _ ∧
      (uploadSourceContentToTransifex cfg env (filterContent (d itemId) fields)
        itemId st2).1.trace.countP isTransifexGet = _
    rw [filterContent_blank _ _ hblank, upload_empty cfg env itemId st2 (hc _)]
    constructor
    · simp only [List.countP_append]
      rw [hcnt.2]
      simp [isUploadPost]
    · simp only [List.countP_append]
      rw [hcnt.1]
      simp [isTransifexGet]

/-- C4: the uploaded content map contains exactly the entries of the
item's field list whose value is non-null and non-blank after trimming
(the code's filter coincides with the spec-worded one), and an item all of
whose fields are null, empty or whitespace-only produces zero upload POSTs
while the resource reconciliation still performs its GET. -/
theorem C4_blank_field_filtering :
    (∀ d fields, filterContent d fields = specContentFilter d fields) ∧
    (∀ cfg env kind endpoint idParamName d stcs fields item st,
      (∀ k, env.cancel k = false) → validItem item = true →
      stcs endpoint (item.id.getD "") < 400 →
      (∀ f ∈ fields, ∀ v, d (item.id.getD "") f = some v → pyStrip v = "") →
      (processItem cfg env kind endpoint idParamName d stcs fields item
          st).1.trace.countP isUploadPost = st.trace.countP isUploadPost ∧
      (processItem cfg env kind endpoint idParamName d stcs fields item
          st).1.trace.countP isTransifexGet = st.trace.countP isTransifexGet + 1) := by
  constructor
  · intro d fields
    induction fields with
    | nil => rfl
    | cons f fs ih =>
      show List.filterMap _ (f :: fs) = List.filterMap _ (f :: fs)
      rw [List.filterMap_cons, List.filterMap_cons]
      cases hdf : d f with
      | none =>
        simp only [hdf]
        exact ih
      | some v =>
        simp only [hdf]
        by_cases htr : pyStrip v = ""
        · rw [if_neg (by simp [htr]), if_neg (by simp [htr])]
          exact ih
        · have hvne : v ≠ "" := by
            intro h
            apply htr
            rw [h]
            decide
          rw [if_pos (by exact ⟨hvne, htr⟩), if_pos htr]
          exact congrArg (List.cons (f, v)) ih
  · intro cfg env kind endpoint idParamName d stcs fields item st hc hval hds hblank
    have hv1 : truthy item.id = true := ((Bool.and_eq_true _ _).mp hval).1
    have hv2 : truthy item.name = true := ((Bool.and_eq_true _ _).mp hval).2
    rw [processItem, checkForCancel_ok env _ _ (hc _)]
    simp only [hv1, hv2, and_self, if_true]
    rw [fetchBrazeItemDetails, checkForCancel_ok env _ _ (hc _)]
    simp only [emit, logInfo]
    rw [if_neg (Nat.not_le.mpr hds)]
    constructor
    · exact ((ensureThenUploadBlank_counts cfg env (item.id.getD "") (item.name.getD "")
        d fields _ hc hblank).1).trans (by simp [List.countP_append, isUploadPost])
    · exact ((ensureThenUploadBlank_counts cfg env (item.id.getD "") (item.name.getD "")
        d fields _ hc hblank).2).trans (by simp [List.countP_append, isTransifexGet])

/-- C4 witness: an all-blank item at a concrete environment uploads
nothing while the reconciliation GET still happens. -/
theorem C4_witness :
    (processItem cfg0 env0 "Email Template" "/templates/email/info" "email_template_id"
        dBlank (fun _ _ => 200) EMAIL_TRANSLATABLE_FIELDS ⟨some "e1", some "T"⟩
        initSt).1.trace.countP isUploadPost = 0 ∧
    (processItem cfg0 env0 "Email Template" "/templates/email/info" "email_template_id"
        dBlank (fun _ _ => 200) EMAIL_TRANSLATABLE_FIELDS ⟨some "e1", some "T"⟩
        initSt).1.trace.countP isTransifexGet = 1 := by
  have hb : ∀ f ∈ EMAIL_TRANSLATABLE_FIELDS, ∀ v,
      dBlank (ListItem.id ⟨some "e1", some "T"⟩ |>.getD "") f = some v → pyStrip v = "" := by
    intro f hf v hv
    fin_cases hf
    · simp [dBlank] at hv
      rw [← hv]
      rfl
    · simp [dBlank] at hv
    · simp [dBlank] at hv
  have h := C4_blank_field_filtering.2 cfg0 env0 "Email Template" "/templates/email/info"
    "email_template_id" dBlank (fun _ _ => 200) EMAIL_TRANSLATABLE_FIELDS
    ⟨some "e1", some "T"⟩ initSt (fun _ => rfl) (by decide) (by decide) hb
  exact ⟨h.1.trans rfl, h.2.trans rfl⟩

/-- The list fetch loop, against the slice-serving environment with enough
fuel, returns the accumulator followed by everything from the current
offset on, and adds no resource-creation POST, PATCH or upload POST to the
trace. -/
lemma fetchLoop_all (cfg : Config) (env : Env) (endpoint listKey : String)
    (coll : List ListItem) (limit : Nat) (hl : 0 < limit)
    (hc : ∀ k, env.cancel k = false)
    (hst : ∀ o, env.brazeListStatus endpoint o < 400) :
    ∀ fuel offset acc st, coll.length - offset < fuel →
      (fetchBrazeListLoop cfg env endpoint listKey coll limit fuel offset acc st).2 =
        .ok (acc ++ coll.drop offset) ∧
      (fetchBrazeListLoop cfg env endpoint listKey coll limit fuel offset acc
          st).1.trace.countP isCreatePost = st.trace.countP isCreatePost ∧
      (fetchBrazeListLoop cfg env endpoint listKey coll limit fuel offset acc
          st).1.trace.countP isPatchCall = st.trace.countP isPatchCall ∧
      (fetchBrazeListLoop cfg env endpoint listKey coll limit fuel offset acc
          st).1.trace.filter isUploadPost = st.trace.filter isUploadPost := by
  intro fuel
  induction fuel with
  | zero => intro offset acc st h; omega
  | succ fuel ih =>
    intro offset acc st hfuel
    rw [fetchBrazeListLoop, checkForCancel_ok env _ _ (hc _)]
    simp only [emit, logInfo]
    rw [if_neg (Nat.not_le.mpr (hst offset))]
    by_cases hemp : ((coll.drop offset).take limit).isEmpty
    · rw [if_pos hemp]
      have hdrop : coll.drop offset = [] := by
        rcases List.take_eq_nil_iff.mp (List.isEmpty_iff.mp hemp) with h | h
        · omega
        · exact h
      refine ⟨by rw [hdrop, List.append_nil], ?_, ?_, ?_⟩ <;>
        simp [List.countP_append, List.filter_append, isCreatePost, isPatchCall,
          isUploadPost]
    · rw [if_neg hemp]
      by_cases hshort : ((coll.drop offset).take limit).length < limit
      · rw [if_pos hshort]
        have htake : (coll.drop offset).take limit = coll.drop offset := by
          apply List.take_of_length_le
          have := List.length_take limit (coll.drop offset)
          omega
        refine ⟨by rw [htake], ?_, ?_, ?_⟩ <;>
          simp [List.countP_append, List.filter_append, isCreatePost, isPatchCall,
            isUploadPost]
      · rw [if_neg hshort]
        have hlen : ((coll.drop offset).take limit).length = limit := by
          have := List.length_take limit (coll.drop offset)
          omega
        have hne : (coll.drop offset).take limit ≠ [] := by
          intro h
          rw [h] at hemp
          simp at hemp
        have hofflt : offset < coll.length := by
          by_contra hge
          apply hne
          rw [List.drop_eq_nil_of_le (by omega)]
          exact List.take_nil
        have hless : coll.length -
            (offset + ((coll.drop offset).take limit).length) < fuel := by omega
        refine ⟨((ih _ _ _ hless).1).trans ?_, ((ih _ _ _ hless).2.1).trans ?_,
          ((ih _ _ _ hless).2.2.1).trans ?_, ((ih _ _ _ hless).2.2.2).trans ?_⟩
        · have hjoin : (coll.drop offset).take limit ++
              coll.drop (offset + ((coll.drop offset).take limit).length) =
              coll.drop offset := by
            conv_rhs => rw [← List.take_append_drop limit (coll.drop offset)]
            rw [List.drop_drop, hlen, Nat.add_comm]
          rw [List.append_assoc, hjoin]
        · simp [List.countP_append, isCreatePost]
        · simp [List.countP_append, isPatchCall]
        · simp [List.filter_append, isUploadPost]

set_option maxRecDepth 40000 in
/-- C3: Source list retrieval is offset-paginated with page size 100, the
first request omitting the offset parameter and later ones carrying it,
stopping exactly on a short or empty page, and returns every item in
order: in general the fetch returns the whole collection, and concretely a
150-item collection costs exactly two list GETs (offsets omitted and 100)
while a 200-item collection costs exactly three (offsets omitted, 100 and
200). -/
theorem C3_pagination :
    (∀ cfg env endpoint listKey coll st, (∀ k, env.cancel k = false) →
      (∀ o, env.brazeListStatus endpoint o < 400) →
      (fetchBrazeList cfg env endpoint listKey coll st).2 = .ok coll) ∧
    (fetchBrazeList cfg0 env0 "/templates/email/list" "templates" coll150
        initSt).2 = .ok coll150 ∧
    (fetchBrazeList cfg0 env0 "/templates/email/list" "templates" coll150
        initSt).1.trace.filter isBrazeCall =
      [.httpGet .braze "https://rest.braze.test/templates/email/list?limit=100",
       .httpGet .braze
         "https://rest.braze.test/templates/email/list?limit=100&offset=100"] ∧
    (fetchBrazeList cfg0 env0 "/content_blocks/list" "content_blocks" coll200
        initSt).1.trace.filter isBrazeCall =
      [.httpGet .braze "https://rest.braze.test/content_blocks/list?limit=100",
       .httpGet .braze "https://rest.braze.test/content_blocks/list?limit=100&offset=100",
       .httpGet .braze
         "https://rest.braze.test/content_blocks/list?limit=100&offset=200"] := by
  refine ⟨?_, by decide, by decide, by decide⟩
  intro cfg env endpoint listKey coll st hc hst
  have h := (fetchLoop_all cfg env endpoint listKey coll 100 (by omega) hc hst
    (coll.length + 1) 0 [] st (by omega)).1
  rw [fetchBrazeList, h]
  simp

/-- C3 witness: the general return-everything part applied at a concrete
one-item collection. -/
theorem C3_witness :
    (fetchBrazeList cfg0 env0 "/templates/email/list" "templates"
        [⟨some "a", some "b"⟩] initSt).2 = .ok [⟨some "a", some "b"⟩] :=
  C3_pagination.1 cfg0 env0 "/templates/email/list" "templates"
    [⟨some "a", some "b"⟩] initSt (fun _ => rfl)
    (fun _ => show (200 : Nat) < 400 by decide)

/-- A polling iteration that finds the job completed: GET status, log,
GET the download link, and exit with the content in hand. -/
lemma pollLoop_completed (cfg : Config) (env : Env) (url : String)
    (fuel t interval k : Nat) (st : St) (dl : String)
    (ht : t < 300) (hc : env.cancel st.checks = false)
    (hp : env.poll k = .json 200 (some "completed") (some dl))
    (hdl : env.downloadStatus < 400) :
    pollLoop cfg env url (fuel + 1) t interval k st =
      ({ checks := st.checks + 1,
         trace := st.trace ++ [.httpGet .transifex url, .log "  > File ready for download.",
                               .httpGet .plainHttp dl] }, .ok .content) := by
  simp [pollLoop, ht, pollCancelRead, hc, emit, hp, PollResp.status, logInfo,
    Nat.not_le.mpr hdl]

/-- Against an all-pending status oracle the polling loop can only exit by
deadline (or fuel, which perform_tmx_backup maps to failure as well), and
it never GETs a download link. -/
lemma pollLoop_pending (cfg : Config) (env : Env) (url : String)
    (hc : ∀ k, env.cancel k = false)
    (hp : ∀ j, env.poll j = .json 200 (some "pending") none) :
    ∀ fuel t interval k st stp rp,
      pollLoop cfg env url fuel t interval k st = (stp, rp) →
      (rp = .ok .deadline ∨ rp = .ok .fuelOut) ∧
      stp.trace.countP isDownloadGet = st.trace.countP isDownloadGet := by
  intro fuel
  induction fuel with
  | zero =>
    intro t interval k st stp rp heq
    rw [pollLoop] at heq
    cases heq
    exact ⟨Or.inr rfl, rfl⟩
  | succ fuel ih =>
    intro t interval k st stp rp heq
    by_cases ht : t < 300
    · rw [pollLoop_step cfg env url fuel t interval k st (some "pending") none ht (hc _)
        (hp k) (by decide) (by decide)] at heq
      obtain ⟨hdis, hcount⟩ := ih _ _ _ _ _ _ heq
      refine ⟨hdis, hcount.trans ?_⟩
      by_cases hlvl : cfg.logLevel = "Debug" <;>
        simp [emit, logDebug, hlvl, List.countP_append, isDownloadGet]
    · rw [pollLoop, if_neg ht] at heq
      cases heq
      exact ⟨Or.inl rfl, rfl⟩

/-- C5: with a poll-status sequence pending, pending, completed the backup
performs exactly two backoff sleeps, of 5s then 10s, before the single
download GET fires and the backup succeeds; and against any all-pending
status oracle (whose accumulated waiting necessarily passes the 300s
deadline) the backup returns failure without ever issuing a download
GET. -/
theorem C5_backup_polling :
    (∀ cfg env st jid dl, cfg.logLevel = "Normal" → (∀ k, env.cancel k = false) →
      truthy cfg.backupPath = true → env.tmxPostStatus < 400 →
      env.tmxJobId = some jid →
      env.poll 0 = .json 200 (some "pending") none →
      env.poll 1 = .json 200 (some "pending") none →
      env.poll 2 = .json 200 (some "completed") (some dl) →
      env.downloadStatus < 400 →
      (performTmxBackup cfg env st).2 = .ok true ∧
      (performTmxBackup cfg env st).1.trace.filter
          (fun e => isSleep e || isDownloadGet e) =
        st.trace.filter (fun e => isSleep e || isDownloadGet e) ++
          [.sleepMs 5000, .sleepMs 10000, .httpGet .plainHttp dl]) ∧
    (∀ cfg env st jid, (∀ k, env.cancel k = false) →
      truthy cfg.backupPath = true → env.tmxPostStatus < 400 →
      env.tmxJobId = some jid →
      (∀ j, env.poll j = .json 200 (some "pending") none) →
      (performTmxBackup cfg env st).2 = .ok false ∧
      (performTmxBackup cfg env st).1.trace.countP isDownloadGet =
        st.trace.countP isDownloadGet) := by
  constructor
  · intro cfg env st jid dl hlvl hc hbp hpost hjob hp0 hp1 hp2 hdl
    rw [performTmxBackup]
    simp only [hbp, if_true]
    rw [if_neg (Nat.not_le.mpr hpost)]
    simp only [hjob]
    rw [show (301 : Nat) = 300 + 1 from rfl]
    rw [pollLoop_step cfg env _ 300 0 5 0 _ (some "pending") none (by decide) (hc _) hp0
      (by decide) (by decide)]
    rw [show (300 : Nat) = 299 + 1 from rfl]
    rw [show (0 : Nat) + 5 = 5 from rfl, show min (5 * 2) 30 = 10 from rfl,
      show (0 : Nat) + 1 = 1 from rfl]
    rw [pollLoop_step cfg env _ 299 5 10 1 _ (some "pending") none (by decide) (hc _) hp1
      (by decide) (by decide)]
    rw [show (299 : Nat) = 298 + 1 from rfl]
    rw [show (5 : Nat) + 10 = 15 from rfl, show min (10 * 2) 30 = 20 from rfl,
      show (1 : Nat) + 1 = 2 from rfl]
    rw [pollLoop_completed cfg env _ 298 15 20 2 _ dl (by decide) (hc _) hp2 hdl]
    constructor
    · rfl
    · simp [emit, logInfo, logDebug, hlvl, List.filter_append, isSleep, isDownloadGet]
  · intro cfg env st jid hc hbp hpost hjob hp
    rw [performTmxBackup]
    simp only [hbp, if_true]
    rw [if_neg (Nat.not_le.mpr hpost)]
    simp only [hjob]
    split
    · rename_i stp e heq
      obtain ⟨hdis, _⟩ := pollLoop_pending cfg env _ hc hp _ _ _ _ _ _ _ heq
      rcases hdis with h | h <;> cases h
    · rename_i stp heq
      obtain ⟨hdis, _⟩ := pollLoop_pending cfg env _ hc hp _ _ _ _ _ _ _ heq
      rcases hdis with h | h <;> cases h
    · rename_i stp heq
      obtain ⟨hdis, _⟩ := pollLoop_pending cfg env _ hc hp _ _ _ _ _ _ _ heq
      rcases hdis with h | h <;> cases h
    · rename_i stp heq
      obtain ⟨_, hcount⟩ := pollLoop_pending cfg env _ hc hp _ _ _ _ _ _ _ heq
      refine ⟨rfl, ?_⟩
      rw [logError]
      show (emit stp _).trace.countP isDownloadGet = _
      rw [emit]
      simp only [List.countP_append]
      rw [hcount]
      simp [emit, logInfo, List.countP_append, isDownloadGet]
    · rename_i stp heq
      obtain ⟨_, hcount⟩ := pollLoop_pending cfg env _ hc hp _ _ _ _ _ _ _ heq
      refine ⟨rfl, ?_⟩
      rw [hcount]
      simp [emit, logInfo, List.countP_append, isDownloadGet]

/-- C5 witness: the two parts applied at concrete environments (a
three-poll completion, and an all-pending oracle). -/
theorem C5_witness :
    (performTmxBackup { cfg0 with backupEnabled := true }
        { env0 with poll := fun k => if k < 2 then .json 200 (some "pending") none
            else .json 200 (some "completed") (some "http://dl") } initSt).2 = .ok true ∧
    (performTmxBackup { cfg0 with backupEnabled := true } env0 initSt).2 = .ok false := by
  constructor
  · exact (C5_backup_polling.1 { cfg0 with backupEnabled := true }
      { env0 with poll := fun k => if k < 2 then .json 200 (some "pending") none
          else .json 200 (some "completed") (some "http://dl") } initSt "job1" "http://dl"
      rfl (fun _ => rfl) rfl (by decide) rfl (by decide) (by decide) (by decide)
      (by decide)).1
  · exact (C5_backup_polling.2 { cfg0 with backupEnabled := true } env0 initSt "job1"
      (fun _ => rfl) rfl (by decide) rfl (fun _ => rfl)).1

/-- The polling loop never issues a Source call, a resource-creation POST,
a PATCH or an upload POST, whatever the environment answers. -/
lemma pollLoop_mut (cfg : Config) (env : Env) (url : String) :
    ∀ fuel t interval k st stp rp,
      pollLoop cfg env url fuel t interval k st = (stp, rp) →
      stp.trace.countP isSourceOrMutation = st.trace.countP isSourceOrMutation := by
  intro fuel
  induction fuel with
  | zero =>
    intro t interval k st stp rp heq
    rw [pollLoop] at heq
    cases heq
    rfl
  | succ fuel ih =>
    intro t interval k st stp rp heq
    rw [pollLoop] at heq
    by_cases ht : t < 300
    · rw [if_pos ht] at heq
      rw [pollCancelRead] at heq
      by_cases hcv : env.cancel st.checks
      · simp only [hcv] at heq
        cases heq
        rfl
      · simp only [Bool.not_eq_true] at hcv
        simp only [hcv] at heq
        cases hpk : env.poll k with
        | json sc js dl =>
          simp only [hpk, PollResp.status] at heq
          by_cases hsc : 400 ≤ sc
          · rw [if_pos hsc] at heq
            cases heq
            simp [emit, logFatal, List.countP_append, isSourceOrMutation, isBrazeCall,
              isCreatePost, isPatchCall, isUploadPost]
          · rw [if_neg hsc] at heq
            by_cases hjs : js = some "completed"
            · simp only [hjs, if_true, if_pos] at heq
              rcases dl with _ | durl
              · simp only [] at heq
                cases heq
                simp [emit, logError, List.countP_append, isSourceOrMutation,
                  isBrazeCall, isCreatePost, isPatchCall, isUploadPost]
              · simp only [] at heq
                by_cases hdl : 400 ≤ env.downloadStatus
                · rw [if_pos hdl] at heq
                  cases heq
                  simp [emit, logFatal, logInfo, List.countP_append, isSourceOrMutation,
                    isBrazeCall, isCreatePost, isPatchCall, isUploadPost]
                · rw [if_neg hdl] at heq
                  cases heq
                  simp [emit, logInfo, List.countP_append, isSourceOrMutation,
                    isBrazeCall, isCreatePost, isPatchCall, isUploadPost]
            · by_cases hjf : js = some "failed"
              · simp only [hjs, hjf, if_false, if_true, if_neg, if_pos] at heq
                cases heq
                simp [emit, logError, List.countP_append, isSourceOrMutation,
                  isBrazeCall, isCreatePost, isPatchCall, isUploadPost]
              · simp only [hjs, hjf, if_false] at heq
                have hrec := ih _ _ _ _ _ _ heq
                rw [hrec]
                by_cases hlvl : cfg.logLevel = "Debug" <;>
                  simp [emit, logDebug, hlvl, List.countP_append, isSourceOrMutation,
                    isBrazeCall, isCreatePost, isPatchCall, isUploadPost]
        | jsonBad sc =>
          simp only [hpk, PollResp.status] at heq
          by_cases hsc : 400 ≤ sc <;> simp only [hsc, if_true, if_false] at heq <;>
            (cases heq;
             simp [emit, logFatal, logError, List.countP_append, isSourceOrMutation,
               isBrazeCall, isCreatePost, isPatchCall, isUploadPost])
        | file sc =>
          simp only [hpk, PollResp.status] at heq
          by_cases hsc : 400 ≤ sc <;> simp only [hsc, if_true, if_false] at heq <;>
            (cases heq;
             simp [emit, logFatal, logInfo, List.countP_append, isSourceOrMutation,
               isBrazeCall, isCreatePost, isPatchCall, isUploadPost])
        | badCT sc ct =>
          simp only [hpk, PollResp.status] at heq
          by_cases hsc : 400 ≤ sc <;> simp only [hsc, if_true, if_false] at heq <;>
            (cases heq;
             simp [emit, logFatal, logError, List.countP_append, isSourceOrMutation,
               isBrazeCall, isCreatePost, isPatchCall, isUploadPost])
    · rw [if_neg ht] at heq
      cases heq
      rfl

/-- The whole backup step never issues a Source call, a resource-creation
POST, a PATCH or an upload POST. -/
lemma performTmx_mut (cfg : Config) (env : Env) (st stp : St) (rb : Except RunError Bool)
    (heq : performTmxBackup cfg env st = (stp, rb)) :
    stp.trace.countP isSourceOrMutation = st.trace.countP isSourceOrMutation := by
  rw [performTmxBackup] at heq
  by_cases hbp : truthy cfg.backupPath
  · simp only [hbp, if_true] at heq
    by_cases hpost : 400 ≤ env.tmxPostStatus
    · rw [if_pos hpost] at heq
      cases heq
      simp [emit, logFatal, logInfo, List.countP_append, isSourceOrMutation,
        isBrazeCall, isCreatePost, isPatchCall, isUploadPost]
    · rw [if_neg hpost] at heq
      rcases hjob : env.tmxJobId with _ | jid <;> simp only [hjob] at heq
      · cases heq
        simp [emit, logFatal, logInfo, List.countP_append, isSourceOrMutation,
          isBrazeCall, isCreatePost, isPatchCall, isUploadPost]
      · split at heq <;> rename_i hpl <;> cases heq <;>
          (have h := pollLoop_mut cfg env _ _ _ _ _ _ _ _ hpl;
           simp [emit, logError, logInfo, logFatal, List.countP_append, isSourceOrMutation,
             isBrazeCall, isCreatePost, isPatchCall, isUploadPost] at h;
           try simp [emit, logError, logInfo, logFatal, List.countP_append,
             isSourceOrMutation, isBrazeCall, isCreatePost, isPatchCall, isUploadPost];
           omega)
  · simp only [hbp, if_false, Bool.false_eq_true] at heq
    cases heq
    simp [emit, logError, logInfo, List.countP_append, isSourceOrMutation,
      isBrazeCall, isCreatePost, isPatchCall, isUploadPost]

/-- C6: when backup is enabled and the backup step does not report
success, the run logs the failure and terminates: the whole run makes zero
Source requests and zero Target reconciliation or upload calls. -/
theorem C6_backup_hard_precondition (cfg : Config) (env : Env)
    (hbe : cfg.backupEnabled = true) (hc0 : env.cancel 0 = false)
    (hbf : (performTmxBackup cfg env
      { checks := 1, trace := [.log "--- Starting Braze to Transifex Sync ---",
                               .progress "Starting sync process..."] }).2 = .ok false) :
    syncMain cfg env =
      (logInfo (performTmxBackup cfg env
        { checks := 1, trace := [.log "--- Starting Braze to Transifex Sync ---",
                                 .progress "Starting sync process..."] }).1
        "\n--- Sync halted due to backup failure. ---", .backupHalted) ∧
    (syncMain cfg env).1.trace.countP isSourceOrMutation = 0 := by
  have hc0i : env.cancel initSt.checks = false := hc0
  have hcc : checkForCancel env "Starting sync process..." initSt =
      ({ checks := 1, trace := [.log "--- Starting Braze to Transifex Sync ---",
                                .progress "Starting sync process..."] }, .ok ()) := by
    rw [checkForCancel_ok env _ _ hc0i]
    rfl
  rw [syncMain, syncCore, hcc]
  simp only [hbe, if_true]
  rcases hp : performTmxBackup cfg env
      { checks := 1, trace := [.log "--- Starting Braze to Transifex Sync ---",
                               .progress "Starting sync process..."] } with ⟨stb, rb⟩
  have hp1 := hp
  rw [hp1] at hbf
  have hrb : rb = .ok false := hbf
  subst hrb
  have hmut := performTmx_mut cfg env _ _ _ hp1
  constructor
  · rfl
  · show (logInfo stb "\n--- Sync halted due to backup failure. ---").trace.countP
        isSourceOrMutation = 0
    rw [logInfo, emit]
    simp only [List.countP_append]
    rw [hmut]
    simp [isSourceOrMutation, isBrazeCall, isCreatePost, isPatchCall, isUploadPost]

/-- C6 witness: a concrete run whose backup job-creation POST fails with a
500 halts the sync with no Source or mutating call. -/
theorem C6_witness :
    syncMain { cfg0 with backupEnabled := true } { env0 with tmxPostStatus := 500 } =
      (logInfo (performTmxBackup { cfg0 with backupEnabled := true }
        { env0 with tmxPostStatus := 500 }
        { checks := 1, trace := [.log "--- Starting Braze to Transifex Sync ---",
                                 .progress "Starting sync process..."] }).1
        "\n--- Sync halted due to backup failure. ---", .backupHalted) ∧
    (syncMain { cfg0 with backupEnabled := true }
        { env0 with tmxPostStatus := 500 }).1.trace.countP isSourceOrMutation = 0 :=
  C6_backup_hard_precondition { cfg0 with backupEnabled := true }
    { env0 with tmxPostStatus := 500 } rfl rfl (by decide)

/-- C7: a token set before any network call yields zero HTTP requests and
exactly one cancellation log line; and whenever the try-block raises the
cancellation signal, it is caught once at the top level, the run returns
cleanly (an outcome, not an exception), and the trace up to the raise is
kept unchanged — mutations already applied are not reverted — with only
the cancellation log line appended. -/
theorem C7_cooperative_cancellation :
    (∀ cfg env, env.cancel 0 = true →
      syncMain cfg env =
        ({ checks := 1,
           trace := [.log "--- Starting Braze to Transifex Sync ---",
                     .progress "Starting sync process...",
                     .log "\n--- Sync process was cancelled by the user. ---"] },
         .cancelledCaught) ∧
      (syncMain cfg env).1.trace.countP isHttp = 0 ∧
      (syncMain cfg env).1.trace.countP isCancelLogLine = 1) ∧
    (∀ cfg env st msg, syncCore cfg env initSt = (st, .error (.cancelled msg)) →
      syncMain cfg env = (logInfo st s!"\n--- {msg} ---", .cancelledCaught) ∧
      (syncMain cfg env).1.trace = st.trace ++ [.log s!"\n--- {msg} ---"]) := by
  constructor
  · intro cfg env h
    have heq : syncMain cfg env =
        ({ checks := 1,
           trace := [.log "--- Starting Braze to Transifex Sync ---",
                     .progress "Starting sync process...",
                     .log "\n--- Sync process was cancelled by the user. ---"] },
         .cancelledCaught) := by
      rw [syncMain, syncCore, checkForCancel]
      simp only [emit, initSt, h, if_true, List.cons_append, List.nil_append]
      rfl
    refine ⟨heq, ?_, ?_⟩ <;> rw [heq] <;> rfl
  · intro cfg env st msg h
    constructor
    · rw [syncMain, h]
    · rw [syncMain, h]
      rfl

/-- C7 witness: the two cancellation shapes at concrete environments (the
token set from the very start, and the token set from the second check
on). -/
theorem C7_witness :
    syncMain cfg0 { env0 with cancel := fun _ => true } =
      ({ checks := 1,
         trace := [.log "--- Starting Braze to Transifex Sync ---",
                   .progress "Starting sync process...",
                   .log "\n--- Sync process was cancelled by the user. ---"] },
       .cancelledCaught) ∧
    syncMain cfg0 { env0 with cancel := fun k => decide (1 ≤ k) } =
      (logInfo (syncCore cfg0 { env0 with cancel := fun k => decide (1 ≤ k) } initSt).1
        "\n--- Sync process was cancelled by the user. ---", .cancelledCaught) := by
  constructor
  · exact (C7_cooperative_cancellation.1 cfg0 { env0 with cancel := fun _ => true } rfl).1
  · exact (C7_cooperative_cancellation.2 cfg0 { env0 with cancel := fun k => decide (1 ≤ k) }
      (syncCore cfg0 { env0 with cancel := fun k => decide (1 ≤ k) } initSt).1
      "Sync process was cancelled by the user." (by decide)).1

/-- C8 counterexample: the claim says a list item missing its id or
display name aborts the run fatally, but the code `continue`s: a run whose
only template item has no name completes normally, never even attempting
reconciliation. -/
theorem C8_counterexample :
    (syncMain cfg0 { env0 with templates := [⟨some "e1", none⟩] }).2 = .completed ∧
    (syncMain cfg0
        { env0 with templates := [⟨some "e1", none⟩] }).1.trace.countP isTransifexGet =
      0 := by
  constructor
  · rfl
  · rfl

/-- C8 (amended): a missing expected field does not take one uniform
fatal path.  A list item whose id or display name is absent or empty is
silently skipped (`continue`), the loop moving on without any error.  The
name attribute missing from a 200 resource GET raises a KeyError that
propagates to the top-level handler, which logs a fatal "Missing expected
key" naming the field and ends the run.  The backup job id and the
download link missing raise KeyErrors that are caught locally inside
perform_tmx_backup — the job-id one logged there with a fatal-formatted
line, the download-link one with a plain error line — and converted into
a backup-failure return, so with backup enabled the run halts through the
backup-failure branch, never reaching the top-level KeyError handler. -/
theorem C8_missing_fields (cfg : Config) (env : Env) (kind endpoint idParamName : String)
    (d : String → String → Option String) (stcs : String → String → Nat)
    (fields : List String) (item : ListItem) (st : St)
    (hck : env.cancel st.checks = false) (hval : validItem item = false) :
    processItem cfg env kind endpoint idParamName d stcs fields item st =
      ({ checks := st.checks + 1,
         trace := st.trace ++ [.progress s!"Processing {kind} '{pyStr item.name}'..."] },
       .ok ()) ∧
    (syncMain cfg0 envC8b).2 = .keyErrorCaught ∧
    (syncMain cfg0 envC8b).1.trace.getLast? =
      some (.log
        "\n--- [FATAL] Received an unexpected API response. Missing expected key: 'name' ---") ∧
    (∀ cfg2 env2 st2, truthy cfg2.backupPath = true → env2.tmxPostStatus < 400 →
      env2.tmxJobId = none →
      (performTmxBackup cfg2 env2 st2).2 = .ok false ∧
      (performTmxBackup cfg2 env2 st2).1.trace.getLast? =
        some (.log
          "\n--- [FATAL] An unexpected error occurred starting TMX backup job: KeyError ---")) ∧
    (∀ cfg2 env2 url fuel t interval k st2, t < 300 → env2.cancel st2.checks = false →
      env2.poll k = .json 200 (some "completed") none →
      pollLoop cfg2 env2 url (fuel + 1) t interval k st2 =
        (logError
          { checks := st2.checks + 1, trace := st2.trace ++ [.httpGet .transifex url] }
          "An unexpected error occurred during TMX backup polling: KeyError",
         .ok .failedEarly)) ∧
    (syncMain { cfg0 with backupEnabled := true } { env0 with tmxJobId := none }).2 =
      .backupHalted ∧
    (syncMain { cfg0 with backupEnabled := true }
      { env0 with poll := fun _ => .json 200 (some "completed") none }).2 =
      .backupHalted := by
  refine ⟨?_, by rfl, by rfl, ?_, ?_, by rfl, by rfl⟩
  · rw [processItem, checkForCancel_ok env _ _ hck]
    have hnot : ¬(truthy item.id = true ∧ truthy item.name = true) := by
      rintro ⟨h1, h2⟩
      simp [validItem, h1, h2] at hval
    simp only [hnot, if_false]
  · intro cfg2 env2 st2 hbp hpost hjob
    rw [performTmxBackup]
    simp only [hbp, if_true]
    rw [if_neg (Nat.not_le.mpr hpost)]
    simp only [hjob]
    refine ⟨by trivial, ?_⟩
    simp only [logFatal, emit]
    rw [List.getLast?_concat]
    rfl
  · intro cfg2 env2 url fuel t interval k st2 ht hck2 hp
    simp [pollLoop, ht, pollCancelRead, hck2, emit, hp, PollResp.status, logError]

/-- C8 witness: the skip behaviour applied to a concrete item with a
missing id, and the locally-caught job-id KeyError applied to a concrete
environment whose export POST answers without a job id. -/
theorem C8_witness :
    processItem cfg0 env0 "Email Template" "/templates/email/info" "email_template_id"
      (fun _ _ => none) (fun _ _ => 200) EMAIL_TRANSLATABLE_FIELDS ⟨none, some "X"⟩
      initSt =
      ({ checks := 1,
         trace := [.log "--- Starting Braze to Transifex Sync ---",
                   .progress "Processing Email Template 'X'..."] }, .ok ()) ∧
    (performTmxBackup cfg0 { env0 with tmxJobId := none } initSt).2 = .ok false := by
  have h := C8_missing_fields cfg0 env0 "Email Template" "/templates/email/info"
    "email_template_id" (fun _ _ => none) (fun _ _ => 200) EMAIL_TRANSLATABLE_FIELDS
    ⟨none, some "X"⟩ initSt rfl (by decide)
  constructor
  · simpa using h.1
  · exact (h.2.2.2.1 cfg0 { env0 with tmxJobId := none } initSt (by decide) (by decide)
      rfl).1

/-- Reconciliation on a 404 with a successful creation POST, in explicit
form. -/
lemma ensure_404 (cfg : Config) (env : Env) (slug name : String) (st : St)
    (hck : env.cancel st.checks = false)
    (h404 : env.resourceGet slug = .notFound) (hcs : env.createStatus slug < 400) :
    createOrUpdateTransifexResource cfg env slug name st =
      ({ checks := st.checks + 1,
         trace := st.trace ++
           [.progress s!"Processing resource '{slug}'...",
            .httpGet .transifex (resourceUrl cfg slug),
            .log s!"  > Resource '{slug}' not found. Creating...",
            .httpPost .transifex s!"{TRANSIFEX_API_BASE_URL}/resources"
              (.createResource (transifexProjectId cfg) slug name),
            .log s!"  > Resource '{slug}' created with name '{name}'."] }, .ok ()) := by
  rw [createOrUpdateTransifexResource, checkForCancel_ok env _ _ hck]
  simp only [h404]
  rw [if_neg (Nat.not_le.mpr hcs)]
  simp only [emit, logInfo, List.append_assoc, List.cons_append, List.nil_append]

/-- Reconciliation on a 200 whose existing name already matches, in
explicit form. -/
lemma ensure_found (cfg : Config) (env : Env) (slug name : String) (st : St)
    (hck : env.cancel st.checks = false)
    (hok : env.resourceGet slug = .okName (some name)) :
    createOrUpdateTransifexResource cfg env slug name st =
      ({ checks := st.checks + 1,
         trace := st.trace ++
           [.progress s!"Processing resource '{slug}'...",
            .httpGet .transifex (resourceUrl cfg slug),
            .log s!"  > Resource '{slug}' found with correct name."] }, .ok ()) := by
  rw [createOrUpdateTransifexResource, checkForCancel_ok env _ _ hck]
  simp only [hok]
  rw [if_neg (fun h : name ≠ name => h rfl)]
  simp only [emit, logInfo, List.append_assoc, List.cons_append, List.nil_append]

/-- An upload with a successful status returns normally, adds no creation
POST or PATCH, and appends exactly the upload POST the content dictates
(none when it is empty). -/
lemma upload_counts (cfg : Config) (env : Env) (content : List (String × String))
    (slug : String) (st : St)
    (hck : env.cancel st.checks = false) (hup : env.uploadStatus slug < 400) :
    (uploadSourceContentToTransifex cfg env content slug st).2 = .ok () ∧
    (uploadSourceContentToTransifex cfg env content slug st).1.trace.countP isCreatePost =
      st.trace.countP isCreatePost ∧
    (uploadSourceContentToTransifex cfg env content slug st).1.trace.countP isPatchCall =
      st.trace.countP isPatchCall ∧
    (uploadSourceContentToTransifex cfg env content slug st).1.trace.filter isUploadPost =
      st.trace.filter isUploadPost ++
        (if content.isEmpty then [] else
          [.httpPost .transifex s!"{TRANSIFEX_API_BASE_URL}/resource_strings_async_uploads"
            (.upload (uploadResourceId cfg slug) content)]) := by
  rw [uploadSourceContentToTransifex, checkForCancel_ok env _ _ hck]
  by_cases hemp : content.isEmpty
  · simp only [hemp, if_true]
    refine ⟨by trivial, ?_, ?_, ?_⟩ <;>
      simp [emit, logInfo, List.countP_append, List.filter_append, isCreatePost,
        isPatchCall, isUploadPost]
  · simp only [hemp, if_false, Bool.false_eq_true]
    rw [if_neg (Nat.not_le.mpr hup)]
    by_cases h202 : env.uploadStatus slug = 202
    · simp only [h202, if_pos]
      refine ⟨by trivial, ?_, ?_, ?_⟩ <;>
        simp [emit, logInfo, List.countP_append, List.filter_append, isCreatePost,
          isPatchCall, isUploadPost]
    · rw [if_neg h202]
      refine ⟨by trivial, ?_, ?_, ?_⟩ <;>
        simp [emit, logInfo, List.countP_append, List.filter_append, isCreatePost,
          isPatchCall, isUploadPost]

/-- Equation form of `upload_counts`, for composing through the per-item
match. -/
lemma upload_run (cfg : Config) (env : Env) (content : List (String × String))
    (slug : String) (hup : env.uploadStatus slug < 400) :
    ∀ st stp rp, uploadSourceContentToTransifex cfg env content slug st = (stp, rp) →
      env.cancel st.checks = false →
      rp = .ok () ∧
      stp.trace.countP isCreatePost = st.trace.countP isCreatePost ∧
      stp.trace.countP isPatchCall = st.trace.countP isPatchCall ∧
      stp.trace.filter isUploadPost =
        st.trace.filter isUploadPost ++
          (if content.isEmpty then [] else
            [.httpPost .transifex s!"{TRANSIFEX_API_BASE_URL}/resource_strings_async_uploads"
              (.upload (uploadResourceId cfg slug) content)]) := by
  intro st stp rp heq hck
  have h := upload_counts cfg env content slug st hck hup
  rw [heq] at h
  exact h

/-- A skipped item (absent or empty id or name) only reports progress. -/
lemma processItem_skip (cfg : Config) (env : Env) (kind endpoint idParamName : String)
    (d : String → String → Option String) (stcs : String → String → Nat)
    (fields : List String) (item : ListItem) (st : St)
    (hck : env.cancel st.checks = false) (hval : validItem item = false) :
    processItem cfg env kind endpoint idParamName d stcs fields item st =
      ({ checks := st.checks + 1,
         trace := st.trace ++ [.progress s!"Processing {kind} '{pyStr item.name}'..."] },
       .ok ()) := by
  rw [processItem, checkForCancel_ok env _ _ hck]
  have hnot : ¬(truthy item.id = true ∧ truthy item.name = true) := by
    rintro ⟨h1, h2⟩
    simp [validItem, h1, h2] at hval
  simp only [hnot, if_false]

/-- One per-item iteration, when every status the item needs is a success
and the resource either does not exist yet (and is then created) or
already exists under the matching name: the iteration succeeds, issues a
creation POST exactly when the resource was absent, never PATCHes, and
appends exactly the item's upload effects. -/
lemma processItem_run (cfg : Config) (env : Env) (kind endpoint idParamName : String)
    (d : String → String → Option String) (stcs : String → String → Nat)
    (fields : List String) (it : ListItem) (st stp : St) (rp : Except RunError Unit)
    (hc : ∀ k, env.cancel k = false)
    (heq : processItem cfg env kind endpoint idParamName d stcs fields it st = (stp, rp))
    (hds : validItem it = true → stcs endpoint (it.id.getD "") < 400)
    (hup : validItem it = true → env.uploadStatus (it.id.getD "") < 400)
    (hmode : validItem it = true →
      (env.resourceGet (it.id.getD "") = .notFound ∧
        env.createStatus (it.id.getD "") < 400) ∨
      env.resourceGet (it.id.getD "") = .okName (some (it.name.getD ""))) :
    rp = .ok () ∧
    stp.trace.countP isCreatePost =
      st.trace.countP isCreatePost + (if createdItem env it then 1 else 0) ∧
    stp.trace.countP isPatchCall = st.trace.countP isPatchCall ∧
    stp.trace.filter isUploadPost =
      st.trace.filter isUploadPost ++ uploadsFor cfg d fields it := by
  by_cases hval : validItem it = true
  · have hv1 : truthy it.id = true := ((Bool.and_eq_true _ _).mp hval).1
    have hv2 : truthy it.name = true := ((Bool.and_eq_true _ _).mp hval).2
    rw [processItem, checkForCancel_ok env _ _ (hc _)] at heq
    simp only [hv1, hv2, and_self, if_true] at heq
    rw [fetchBrazeItemDetails, checkForCancel_ok env _ _ (hc _)] at heq
    simp only [emit, logInfo] at heq
    rw [if_neg (Nat.not_le.mpr (hds hval))] at heq
    have hcrt : createdItem env it =
        (match env.resourceGet (it.id.getD "") with
         | .notFound => true
         | _ => false) := by
      simp [createdItem, hval]
    generalize hgid : it.id.getD "" = itemId at heq hup hmode hcrt
    generalize hgnm : it.name.getD "" = itemName at heq hmode
    have heq2 : (match createOrUpdateTransifexResource cfg env itemId itemName
        { checks := st.checks + 1 + 1,
          trace := st.trace ++ [.progress s!"Processing {kind} '{pyStr it.name}'..."] ++
            [.log s!"\nProcessing '{itemName}' (ID: {itemId})..."] ++
            [.progress s!"Fetching details for {idParamName}: {itemId}..."] ++
            [.sleepMs 200] ++
            [.log s!"  > Fetching details for ID: {itemId}"] ++
            [.httpGet .braze s!"{cfg.brazeEndpoint}{endpoint}?{idParamName}={itemId}"] } with
      | (st2, .error e) => ((st2, .error e) : M Unit)
      | (st2, .ok _) =>
        uploadSourceContentToTransifex cfg env (filterContent (d itemId) fields)
          itemId st2) = (stp, rp) := heq
    rcases hmode hval with ⟨h404, hcs⟩ | hfound
    · rw [ensure_404 cfg env itemId itemName _ (hc _) h404 hcs] at heq2
      have hu := upload_run cfg env (filterContent (d itemId) fields)
        itemId (hup hval) _ _ _ heq2 (hc _)
      have hcrt2 : createdItem env it = true := by
        rw [hcrt, h404]
      refine ⟨hu.1, ?_, ?_, ?_⟩
      · rw [hu.2.1]
        simp [hcrt2, List.countP_append, isCreatePost]
      · rw [hu.2.2.1]
        simp [List.countP_append, isPatchCall]
      · rw [hu.2.2.2]
        simp [uploadsFor, hval, hgid, List.filter_append, isUploadPost, List.append_assoc]
    · rw [ensure_found cfg env itemId itemName _ (hc _) hfound] at heq2
      have hu := upload_run cfg env (filterContent (d itemId) fields)
        itemId (hup hval) _ _ _ heq2 (hc _)
      have hcrt2 : createdItem env it = false := by
        rw [hcrt, hfound]
      refine ⟨hu.1, ?_, ?_, ?_⟩
      · rw [hu.2.1]
        simp [hcrt2, List.countP_append, isCreatePost]
      · rw [hu.2.2.1]
        simp [List.countP_append, isPatchCall]
      · rw [hu.2.2.2]
        simp [uploadsFor, hval, hgid, List.filter_append, isUploadPost, List.append_assoc]
  · have hvf : validItem it = false := by
      cases h : validItem it
      · rfl
      · exact absurd h hval
    rw [processItem_skip cfg env kind endpoint idParamName d stcs fields it st (hc _) hvf]
      at heq
    cases heq
    have hcrt : createdItem env it = false := by
      simp [createdItem, hvf]
    refine ⟨rfl, ?_, ?_, ?_⟩
    · simp [hcrt, List.countP_append, isCreatePost]
    · simp [List.countP_append, isPatchCall]
    · simp [uploadsFor, hvf, List.filter_append, isUploadPost]

/-- The whole per-item loop, under the same conditions item by item. -/
lemma processItems_run (cfg : Config) (env : Env) (kind endpoint idParamName : String)
    (d : String → String → Option String) (stcs : String → String → Nat)
    (fields : List String) (hc : ∀ k, env.cancel k = false) :
    ∀ items st stp rp,
      processItems cfg env kind endpoint idParamName d stcs fields items st = (stp, rp) →
      (∀ it ∈ items, validItem it = true → stcs endpoint (it.id.getD "") < 400) →
      (∀ it ∈ items, validItem it = true → env.uploadStatus (it.id.getD "") < 400) →
      (∀ it ∈ items, validItem it = true →
        (env.resourceGet (it.id.getD "") = .notFound ∧
          env.createStatus (it.id.getD "") < 400) ∨
        env.resourceGet (it.id.getD "") = .okName (some (it.name.getD ""))) →
      rp = .ok () ∧
      stp.trace.countP isCreatePost =
        st.trace.countP isCreatePost + items.countP (createdItem env) ∧
      stp.trace.countP isPatchCall = st.trace.countP isPatchCall ∧
      stp.trace.filter isUploadPost =
        st.trace.filter isUploadPost ++ concatMap (uploadsFor cfg d fields) items := by
  intro items
  induction items with
  | nil =>
    intro st stp rp heq _ _ _
    rw [processItems] at heq
    cases heq
    simp [concatMap]
  | cons it rest ih =>
    intro st stp rp heq hds hup hmode
    rw [processItems] at heq
    rcases hpi : processItem cfg env kind endpoint idParamName d stcs fields it st
      with ⟨st1, r1⟩
    rw [hpi] at heq
    obtain ⟨hr1, hcr1, hpa1, hupl1⟩ := processItem_run cfg env kind endpoint idParamName
      d stcs fields it st st1 r1 hc hpi (hds it (by simp)) (hup it (by simp))
      (hmode it (by simp))
    subst hr1
    have heq2 : processItems cfg env kind endpoint idParamName d stcs fields rest st1 =
        (stp, rp) := heq
    obtain ⟨hr2, hcr2, hpa2, hupl2⟩ := ih st1 stp rp heq2
      (fun x hx => hds x (by simp [hx])) (fun x hx => hup x (by simp [hx]))
      (fun x hx => hmode x (by simp [hx]))
    refine ⟨hr2, ?_, ?_, ?_⟩
    · rw [hcr2, hcr1, List.countP_cons]
      cases hcrt : createdItem env it <;> simp [hcrt] <;> omega
    · rw [hpa2, hpa1]
    · rw [hupl2, hupl1, List.append_assoc]
      simp [concatMap]

/-- Equation form of the list fetch against the slice-serving
environment. -/
lemma fetch_run (cfg : Config) (env : Env) (endpoint listKey : String)
    (coll : List ListItem) (st stF : St) (rF : Except RunError (List ListItem))
    (hc : ∀ k, env.cancel k = false)
    (hst : ∀ o, env.brazeListStatus endpoint o < 400)
    (heq : fetchBrazeList cfg env endpoint listKey coll st = (stF, rF)) :
    rF = .ok coll ∧
    stF.trace.countP isCreatePost = st.trace.countP isCreatePost ∧
    stF.trace.countP isPatchCall = st.trace.countP isPatchCall ∧
    stF.trace.filter isUploadPost = st.trace.filter isUploadPost := by
  have h := fetchLoop_all cfg env endpoint listKey coll 100 (by omega) hc hst
    (coll.length + 1) 0 [] st (by omega)
  rw [fetchBrazeList] at heq
  rw [heq] at h
  simpa using h

/-- The enumeration part of the run, when every request succeeds and every
valid item's resource is either absent (then created) or present under the
matching name: it finishes, creates exactly the absent resources, never
PATCHes, and uploads exactly the items' filtered contents. -/
lemma syncBody_run (cfg : Config) (env : Env) (st stp : St)
    (rp : Except RunError CoreResult)
    (hc : ∀ k, env.cancel k = false)
    (hls : ∀ ep o, env.brazeListStatus ep o < 400)
    (hds : ∀ ep i, env.brazeDetailStatus ep i < 400)
    (hup : ∀ s2, env.uploadStatus s2 < 400)
    (hmode : ∀ it ∈ env.templates ++ env.contentBlocks, validItem it = true →
      (env.resourceGet (it.id.getD "") = .notFound ∧
        env.createStatus (it.id.getD "") < 400) ∨
      env.resourceGet (it.id.getD "") = .okName (some (it.name.getD "")))
    (heq : syncBody cfg env st = (stp, rp)) :
    rp = .ok .finished ∧
    stp.trace.countP isCreatePost = st.trace.countP isCreatePost +
      (env.templates ++ env.contentBlocks).countP (createdItem env) ∧
    stp.trace.countP isPatchCall = st.trace.countP isPatchCall ∧
    stp.trace.filter isUploadPost = st.trace.filter isUploadPost ++
      (concatMap (uploadsFor cfg env.emailDetails EMAIL_TRANSLATABLE_FIELDS)
        env.templates ++
       concatMap (uploadsFor cfg env.blockDetails BLOCK_TRANSLATABLE_FIELDS)
        env.contentBlocks) := by
  have hmodeT : ∀ it ∈ env.templates, validItem it = true →
      (env.resourceGet (it.id.getD "") = .notFound ∧
        env.createStatus (it.id.getD "") < 400) ∨
      env.resourceGet (it.id.getD "") = .okName (some (it.name.getD "")) :=
    fun it h => hmode it (List.mem_append_left _ h)
  have hmodeB : ∀ it ∈ env.contentBlocks, validItem it = true →
      (env.resourceGet (it.id.getD "") = .notFound ∧
        env.createStatus (it.id.getD "") < 400) ∨
      env.resourceGet (it.id.getD "") = .okName (some (it.name.getD "")) :=
    fun it h => hmode it (List.mem_append_right _ h)
  rw [syncBody, checkForCancel_ok env _ _ (hc _)] at heq
  simp only [] at heq
  split at heq
  · rename_i stF e heqF
    obtain ⟨hok, _, _, _⟩ := fetch_run cfg env _ _ env.templates _ _ _ hc (hls _) heqF
    cases hok
  · rename_i stF items heqF
    obtain ⟨hok, hcF, hpF, huF⟩ := fetch_run cfg env _ _ env.templates _ _ _ hc
      (hls _) heqF
    injection hok with hitems
    subst hitems
    split at heq
    · rename_i stP e heqP
      obtain ⟨hok2, _, _, _⟩ := processItems_run cfg env _ _ _ _ _ _ hc _ _ _ _ heqP
        (fun x _ _ => hds _ _) (fun x _ _ => hup _) hmodeT
      cases hok2
    · rename_i stP u heqP
      obtain ⟨_, hcP, hpP, huP⟩ := processItems_run cfg env _ _ _ _ _ _ hc _ _ _ _ heqP
        (fun x _ _ => hds _ _) (fun x _ _ => hup _) hmodeT
      rw [checkForCancel_ok env _ _ (hc _)] at heq
      simp only [] at heq
      split at heq
      · rename_i stF2 e heqF2
        obtain ⟨hok3, _, _, _⟩ := fetch_run cfg env _ _ env.contentBlocks _ _ _ hc
          (hls _) heqF2
        cases hok3
      · rename_i stF2 blocks heqF2
        obtain ⟨hok3, hcF2, hpF2, huF2⟩ := fetch_run cfg env _ _ env.contentBlocks _ _ _
          hc (hls _) heqF2
        injection hok3 with hblocks
        subst hblocks
        split at heq
        · rename_i stP2 e heqP2
          obtain ⟨hok4, _, _, _⟩ := processItems_run cfg env _ _ _ _ _ _ hc _ _ _ _
            heqP2 (fun x _ _ => hds _ _) (fun x _ _ => hup _) hmodeB
          cases hok4
        · rename_i stP2 u2 heqP2
          obtain ⟨_, hcP2, hpP2, huP2⟩ := processItems_run cfg env _ _ _ _ _ _ hc _ _ _ _
            heqP2 (fun x _ _ => hds _ _) (fun x _ _ => hup _) hmodeB
          cases heq
          refine ⟨rfl, ?_, ?_, ?_⟩
          · show (logInfo stP2 _).trace.countP isCreatePost = _
            rw [logInfo, emit]
            simp only [List.countP_append]
            rw [hcP2, hcF2]
            simp only [logInfo, emit, List.countP_append]
            rw [hcP, hcF]
            simp only [logInfo, emit, List.countP_append]
            simp [isCreatePost, List.countP_cons]
            omega
          · show (logInfo stP2 _).trace.countP isPatchCall = _
            rw [logInfo, emit]
            simp only [List.countP_append]
            rw [hpP2, hpF2]
            simp only [logInfo, emit, List.countP_append]
            rw [hpP, hpF]
            simp only [logInfo, emit, List.countP_append]
            simp [isPatchCall, List.countP_cons]
          · show (logInfo stP2 _).trace.filter isUploadPost = _
            rw [logInfo, emit]
            simp only [List.filter_append]
            rw [huP2, huF2]
            simp only [logInfo, emit, List.filter_append]
            rw [huP, huF]
            simp only [logInfo, emit, List.filter_append]
            simp [isUploadPost, List.append_assoc]

/-- A full run with backup disabled, every request succeeding, and every
valid item's resource either absent (then created) or already present
under the matching name: the run completes, creates exactly the absent
resources, issues zero PATCHes, and uploads exactly the items' filtered
contents. -/
lemma syncMain_run (cfg : Config) (env : Env)
    (hbe : cfg.backupEnabled = false) (hc : ∀ k, env.cancel k = false)
    (hls : ∀ ep o, env.brazeListStatus ep o < 400)
    (hds : ∀ ep i, env.brazeDetailStatus ep i < 400)
    (hup : ∀ s2, env.uploadStatus s2 < 400)
    (hmode : ∀ it ∈ env.templates ++ env.contentBlocks, validItem it = true →
      (env.resourceGet (it.id.getD "") = .notFound ∧
        env.createStatus (it.id.getD "") < 400) ∨
      env.resourceGet (it.id.getD "") = .okName (some (it.name.getD ""))) :
    (syncMain cfg env).2 = .completed ∧
    (syncMain cfg env).1.trace.countP isCreatePost =
      (env.templates ++ env.contentBlocks).countP (createdItem env) ∧
    (syncMain cfg env).1.trace.countP isPatchCall = 0 ∧
    (syncMain cfg env).1.trace.filter isUploadPost =
      concatMap (uploadsFor cfg env.emailDetails EMAIL_TRANSLATABLE_FIELDS)
        env.templates ++
      concatMap (uploadsFor cfg env.blockDetails BLOCK_TRANSLATABLE_FIELDS)
        env.contentBlocks := by
  have hcc : checkForCancel env "Starting sync process..." initSt =
      ({ checks := 1, trace := [.log "--- Starting Braze to Transifex Sync ---",
                                .progress "Starting sync process..."] }, .ok ()) := by
    rw [checkForCancel_ok env _ _ (hc _)]
    rfl
  have hdis : logInfo { checks := 1,
                        trace := [.log "--- Starting Braze to Transifex Sync ---",
                                  .progress "Starting sync process..."] }
      "TMX backup is disabled. Skipping." =
      { checks := 1, trace := [.log "--- Starting Braze to Transifex Sync ---",
                               .progress "Starting sync process...",
                               .log "TMX backup is disabled. Skipping."] } := rfl
  rw [syncMain, syncCore, hcc]
  simp only []
  simp only [hbe, Bool.false_eq_true, if_false]
  rw [hdis]
  rcases hb : syncBody cfg env
      { checks := 1, trace := [.log "--- Starting Braze to Transifex Sync ---",
                               .progress "Starting sync process...",
                               .log "TMX backup is disabled. Skipping."] } with ⟨stB, rB⟩
  obtain ⟨hfin, hcB, hpB, huB⟩ := syncBody_run cfg env _ _ _ hc hls hds hup hmode hb
  subst hfin
  simp only []
  refine ⟨by trivial, ?_, ?_, ?_⟩
  · rw [hcB]
    simp [isCreatePost]
  · rw [hpB]
    simp [isPatchCall]
  · rw [huB]
    simp [isUploadPost]

/-- C1 counterexample: running the sync twice against unchanged Source
data, with Target holding the resource created by the first run under the
matching name, issues the creation POST only once and no PATCH — but the
second run re-issues an upload POST whose payload is identical to the
first run's, contradicting the claim's "zero upload POST duplicating the
first run's payload". -/
theorem C1_counterexample :
    (syncMain cfg0 envRunOne).1.trace.countP isCreatePost = 1 ∧
    (syncMain cfg0 envRunTwo).1.trace.countP isCreatePost = 0 ∧
    (syncMain cfg0 envRunTwo).1.trace.countP isPatchCall = 0 ∧
    (syncMain cfg0 envRunOne).1.trace.filter isUploadPost =
      [.httpPost .transifex
        "https://rest.api.transifex.com/resource_strings_async_uploads"
        (.upload "o:org:p:proj:r:e1" [("subject", "Hi")])] ∧
    (syncMain cfg0 envRunTwo).1.trace.filter isUploadPost =
      [.httpPost .transifex
        "https://rest.api.transifex.com/resource_strings_async_uploads"
        (.upload "o:org:p:proj:r:e1" [("subject", "Hi")])] := by
  refine ⟨?_, ?_, ?_, ?_, ?_⟩ <;> rfl

/-- C1 (amended): for every Source dataset (backup disabled, all requests
succeeding), a second run against unchanged Source data with Target
holding the first run's resources under matching names issues zero
creation POSTs and zero PATCHes — every creation POST happens in the first
run, one per valid item — but re-issues exactly the same upload POSTs as
the first run: content uploads are unconditional, not GET-then-compare. -/
theorem C1_idempotence (cfg : Config) (env1 env2 : Env)
    (hbe : cfg.backupEnabled = false)
    (hc1 : ∀ k, env1.cancel k = false) (hc2 : ∀ k, env2.cancel k = false)
    (hT : env2.templates = env1.templates)
    (hB : env2.contentBlocks = env1.contentBlocks)
    (hED : env2.emailDetails = env1.emailDetails)
    (hBD : env2.blockDetails = env1.blockDetails)
    (hls1 : ∀ ep o, env1.brazeListStatus ep o < 400)
    (hls2 : ∀ ep o, env2.brazeListStatus ep o < 400)
    (hds1 : ∀ ep i, env1.brazeDetailStatus ep i < 400)
    (hds2 : ∀ ep i, env2.brazeDetailStatus ep i < 400)
    (hup1 : ∀ s2, env1.uploadStatus s2 < 400)
    (hup2 : ∀ s2, env2.uploadStatus s2 < 400)
    (h404 : ∀ it ∈ env1.templates ++ env1.contentBlocks, validItem it = true →
      env1.resourceGet (it.id.getD "") = .notFound ∧
      env1.createStatus (it.id.getD "") < 400)
    (hfound : ∀ it ∈ env1.templates ++ env1.contentBlocks, validItem it = true →
      env2.resourceGet (it.id.getD "") = .okName (some (it.name.getD ""))) :
    (syncMain cfg env1).2 = .completed ∧
    (syncMain cfg env2).2 = .completed ∧
    (syncMain cfg env1).1.trace.countP isCreatePost =
      (env1.templates ++ env1.contentBlocks).countP validItem ∧
    (syncMain cfg env2).1.trace.countP isCreatePost = 0 ∧
    (syncMain cfg env1).1.trace.countP isPatchCall = 0 ∧
    (syncMain cfg env2).1.trace.countP isPatchCall = 0 ∧
    (syncMain cfg env2).1.trace.filter isUploadPost =
      (syncMain cfg env1).1.trace.filter isUploadPost := by
  obtain ⟨ho1, hc1c, hp1c, hu1c⟩ := syncMain_run cfg env1 hbe hc1 hls1 hds1 hup1
    (fun it h hv => Or.inl (h404 it h hv))
  obtain ⟨ho2, hc2c, hp2c, hu2c⟩ := syncMain_run cfg env2 hbe hc2 hls2 hds2 hup2
    (fun it h hv => Or.inr (by
      rw [hT, hB] at *
      exact hfound it (by simpa [hT, hB] using h) hv))
  refine ⟨ho1, ho2, ?_, ?_, hp1c, hp2c, ?_⟩
  · rw [hc1c]
    apply List.countP_congr
    intro it hmem
    by_cases hv : validItem it = true
    · obtain ⟨h4, _⟩ := h404 it hmem hv
      simp [createdItem, hv, h4]
    · have hvf : validItem it = false := by
        cases h : validItem it
        · rfl
        · exact absurd h hv
      simp [createdItem, hvf]
  · rw [hc2c]
    rw [hT, hB]
    apply List.countP_eq_zero.mpr
    intro it hmem
    by_cases hv : validItem it = true
    · have hf := hfound it hmem hv
      simp [createdItem, hv, hf]
    · have hvf : validItem it = false := by
        cases h : validItem it
        · rfl
        · exact absurd h hv
      simp [createdItem, hvf]
  · rw [hu1c, hu2c, hT, hB, hED, hBD]

/-- C1 witness: the amended two-run statement applied at the concrete
one-template environments. -/
theorem C1_witness :
    (syncMain cfg0 envRunOne).2 = .completed ∧
    (syncMain cfg0 envRunTwo).2 = .completed ∧
    (syncMain cfg0 envRunTwo).1.trace.filter isUploadPost =
      (syncMain cfg0 envRunOne).1.trace.filter isUploadPost := by
  have h := C1_idempotence cfg0 envRunOne envRunTwo rfl (fun _ => rfl) (fun _ => rfl)
    rfl rfl rfl rfl
    (fun _ _ => show (200 : Nat) < 400 by decide)
    (fun _ _ => show (200 : Nat) < 400 by decide)
    (fun _ _ => show (200 : Nat) < 400 by decide)
    (fun _ _ => show (200 : Nat) < 400 by decide)
    (fun _ => show (202 : Nat) < 400 by decide)
    (fun _ => show (202 : Nat) < 400 by decide)
    (by
      intro it hmem hv
      fin_cases hmem
      exact ⟨rfl, by decide⟩)
    (by
      intro it hmem hv
      fin_cases hmem
      rfl)
  exact ⟨h.1, h.2.1, h.2.2.2.2.2.2⟩

end BtxSync
